import Mathlib

/-!
# Verification of the oil_rig_tycoon market/auction/turn-resolution engine

Shallow embedding of the core engine of the `oil_rig_tycoon` repository
(`rig_tycoon/models.py`, `market.py`, `contracts.py`, `ai.py`,
`rig_market.py`, `sim.py`).  Python floats are modelled as rationals (ℚ),
Python ints as ℤ (ℕ for quantities that are counts: months, day-rates in
$k/day, condition scores), and the shared `random.Random` stream as an
abstract state type threaded through every stochastic operation.
-/

namespace RigTycoon

/-! ## Enumerations (models.py, contracts.py) -/

inductive RigType
  | jackup
  | semi
  | drillship
deriving DecidableEq, Repr

inductive RigState
  | active
  | warm
  | cold
  | scrap
deriving DecidableEq, Repr

inductive Region
  | north_sea
  | gom
  | brazil
  | west_africa
  | se_asia
  | australia
deriving DecidableEq, Repr

inductive ContractType
  | exploration
  | development
  | workover
deriving DecidableEq, Repr

inductive RigClassRequired
  | jackup
  | semi
  | drillship
  | semi_or_drillship
deriving DecidableEq, Repr

inductive PositioningRequired
  | any
  | mored_ok
  | dp_required
deriving DecidableEq, Repr

/-- contracts.py `rig_matches_class`. -/
def rig_matches_class (rig_type : RigType) (req_class : RigClassRequired) : Bool :=
  match req_class with
  | .jackup => rig_type = RigType.jackup
  | .semi => rig_type = RigType.semi
  | .drillship => rig_type = RigType.drillship
  | .semi_or_drillship => rig_type = RigType.semi || rig_type = RigType.drillship

/-- Python `==` between a `RigType` member and a `RigClassRequired` member.
`RigType` is a `str`-valued enum (values "jackup"/"semisub"/"drillship") while
`RigClassRequired` is a plain `auto()` enum; in Python, equality between members
of two distinct enum classes is always `False` (`str.__eq__` returns
`NotImplemented` on a non-string and `Enum.__eq__` falls back to identity).
Hence the comparison `rig.rig_type == tender.spec.rig_type` used by
`ai.choose_bid` is `False` for every pair of members. -/
def py_eq_rigtype_reqclass (_rig_type : RigType) (_req_class : RigClassRequired) : Bool :=
  false

/-! ## Python numeric helpers -/

/-- Python `int(x)`: truncation toward zero. -/
def pyTrunc (q : ℚ) : ℤ :=
  if 0 ≤ q then ⌊q⌋ else -⌊-q⌋

/-- Python `round(x)`: round half to even (banker's rounding). -/
def pyRound (q : ℚ) : ℤ :=
  let f : ℤ := ⌊q⌋
  let frac : ℚ := q - f
  if frac < 1/2 then f
  else if 1/2 < frac then f + 1
  else if f % 2 = 0 then f else f + 1

/-- Python `round(x, 1)`: round to one decimal place, half to even. -/
def pyRound1 (q : ℚ) : ℚ :=
  (pyRound (q * 10) : ℚ) / 10

/-- contracts.py `clamp`. -/
def clamp (x lo hi : ℚ) : ℚ :=
  max lo (min hi x)

/-! ## Dates (Python `datetime.date`, contracts.py `add_months`) -/

structure PyDate where
  year : ℤ
  month : ℕ
  day : ℕ
deriving DecidableEq, Repr

def is_leap_year (y : ℤ) : Bool :=
  (y % 4 = 0 && ¬(y % 100 = 0)) || y % 400 = 0

/-- Python `calendar.monthrange(y, m)[1]`: number of days of month `m` of year `y`. -/
def days_in_month (y : ℤ) (m : ℕ) : ℕ :=
  match m with
  | 1 => 31
  | 2 => if is_leap_year y then 29 else 28
  | 3 => 31
  | 4 => 30
  | 5 => 31
  | 6 => 30
  | 7 => 31
  | 8 => 31
  | 9 => 30
  | 10 => 31
  | 11 => 30
  | 12 => 31
  | _ => 31

/-- contracts.py `add_months`: add months to a date, clamping the day-of-month
to the target month's last day. -/
def add_months (d : PyDate) (months : ℕ) : PyDate :=
  let y : ℤ := d.year + ((d.month - 1 + months) / 12 : ℕ)
  let m : ℕ := (d.month - 1 + months) % 12 + 1
  ⟨y, m, min d.day (days_in_month y m)⟩

/-- Python `date(y, m, d)` raises `ValueError` outside these bounds. -/
def date_valid (y : ℤ) (m d : ℕ) : Prop :=
  1 ≤ y ∧ y ≤ 9999 ∧ 1 ≤ m ∧ m ≤ 12 ∧ 1 ≤ d ∧ d ≤ days_in_month y m

instance (y : ℤ) (m d : ℕ) : Decidable (date_valid y m d) := by
  unfold date_valid; infer_instance

/-- Checked `date(y, m, d)` constructor. -/
def mk_date (y : ℤ) (m d : ℕ) : Option PyDate :=
  if date_valid y m d then some ⟨y, m, d⟩ else none

/-! ## Rig (models.py) -/

structure Rig where
  id : ℤ
  rig_type : RigType
  build_year : ℤ
  condition : ℕ
  region : Region
  state : RigState := RigState.warm
  on_contract_months_left : ℕ := 0
  contract_dayrate : ℕ := 0
  contract_id : Option ℤ := none
  location_id : Option String := none
  model_id : Option String := none
  company_id : Option ℤ := none
  transit_months_left : ℕ := 0
  target_region : Option Region := none
deriving DecidableEq, Repr

/-- Serialized form of a rig (`Rig.to_dict`).  A JSON key that is conditionally
omitted is modelled as an `Option` field (`none` = key absent); enum-valued keys
are kept as their enums (the Python string/enum encoding is bijective). -/
structure RigDict where
  id : ℤ
  model_id : Option String
  rig_type : RigType
  build_year : ℤ
  condition : ℕ
  region : Region
  state : RigState
  transit_months_left : Option ℕ
  target_region : Option Region
  on_contract_months_left : Option ℕ
  contract_dayrate : Option ℕ
  contract_id : Option ℤ
  location_id : Option String
  company_id : Option ℤ
deriving DecidableEq, Repr

/-- models.py `Rig.to_dict`: zero/None-valued optional fields are omitted. -/
def Rig.to_dict (r : Rig) : RigDict where
  id := r.id
  model_id := r.model_id
  rig_type := r.rig_type
  build_year := r.build_year
  condition := r.condition
  region := r.region
  state := r.state
  transit_months_left := if 0 < r.transit_months_left then some r.transit_months_left else none
  target_region := r.target_region
  on_contract_months_left :=
    if 0 < r.on_contract_months_left then some r.on_contract_months_left else none
  contract_dayrate := if 0 < r.contract_dayrate then some r.contract_dayrate else none
  contract_id := r.contract_id
  location_id := r.location_id
  company_id := r.company_id

/-- models.py `Rig.from_dict`: missing keys default to 0 / None. -/
def Rig.from_dict (d : RigDict) : Rig where
  id := d.id
  rig_type := d.rig_type
  build_year := d.build_year
  condition := d.condition
  region := d.region
  state := d.state
  on_contract_months_left := d.on_contract_months_left.getD 0
  contract_dayrate := d.contract_dayrate.getD 0
  contract_id := d.contract_id
  location_id := d.location_id
  model_id := d.model_id
  company_id := d.company_id
  transit_months_left := d.transit_months_left.getD 0
  target_region := d.target_region

/-- models.py `Rig.is_available`. -/
def Rig.is_available (r : Rig) : Bool :=
  decide (r.state = RigState.active ∧ r.on_contract_months_left = 0 ∧
    r.transit_months_left = 0)

/-- models.py `Rig.opex_per_day_k`. -/
def Rig.opex_per_day_k (r : Rig) (current_year : ℤ) : ℕ :=
  let base : ℕ := if r.rig_type = RigType.jackup then 55 else 95
  let age_years : ℕ := (current_year - r.build_year).toNat
  let age_penalty : ℕ := (age_years - 10) * 2
  let condition_penalty : ℕ := (70 - r.condition) / 5
  base + age_penalty + condition_penalty

/-- models.py `Rig.stacking_cost_per_month_k`. -/
def Rig.stacking_cost_per_month_k (r : Rig) : ℕ :=
  match r.state with
  | .active => if r.rig_type = RigType.jackup then 850 else 1400
  | .warm => if r.rig_type = RigType.jackup then 450 else 750
  | .cold => 180
  | .scrap => 0

/-- Shared helper: `Rig.from_dict` inverts `Rig.to_dict`. -/
theorem Rig.from_dict_to_dict (r : Rig) : Rig.from_dict (Rig.to_dict r) = r := by
  cases r
  simp only [Rig.to_dict, Rig.from_dict, Rig.mk.injEq, and_true, true_and]
  refine ⟨?_, ?_, ?_⟩ <;> (split <;> simp_all)

/-! ## Company (models.py) -/

structure Company where
  id : ℤ
  name : String
  cash_musd : ℚ
  rigs : List Rig := []
  debt_musd : ℚ := 0
  reputation : ℚ := 1/2
deriving DecidableEq, Repr

/-- Serialized form of a company: `Company.to_dict` stores only
`(id, location_id)` back-references for its rigs. -/
structure CompanyDict where
  id : ℤ
  name : String
  cash_musd : ℚ
  reputation : ℚ
  debt_musd : ℚ
  rigs : List (ℤ × Option String)
deriving DecidableEq, Repr

/-- models.py `Company.to_dict`. -/
def Company.to_dict (c : Company) : CompanyDict where
  id := c.id
  name := c.name
  cash_musd := c.cash_musd
  reputation := c.reputation
  debt_musd := c.debt_musd
  rigs := c.rigs.map fun r => (r.id, r.location_id)

/-- models.py `Company.from_dict`: rig bodies are looked up in `rig_map`
(identifiers without a match are silently skipped, as in the source). -/
def Company.from_dict (d : CompanyDict) (rig_map : ℤ → Option Rig) : Company where
  id := d.id
  name := d.name
  cash_musd := d.cash_musd
  rigs := d.rigs.filterMap fun p => rig_map p.1
  debt_musd := d.debt_musd
  reputation := d.reputation

/-- Python `{r.id: r for r in rigs}` followed by `d.get(i)`: the *last* rig with
a given id wins on duplicate keys. -/
def rig_map_lookup (rigs : List Rig) (i : ℤ) : Option Rig :=
  rigs.foldl (fun acc r => if r.id = i then some r else acc) none

/-! ## Tenders (contracts.py) -/

structure TenderSpec where
  contract_type : ContractType
  region : Region
  start_date : PyDate
  months : ℕ
  water_depth_m : ℤ
  harsh : Bool
  rig_type : RigClassRequired
  positioning_required : PositioningRequired
  min_condition : ℕ
  min_dayrate : ℤ
  max_dayrate : ℤ
  early_termination_penalty_k : ℤ
deriving DecidableEq, Repr

structure Tender where
  id : ℤ
  spec : TenderSpec
deriving DecidableEq, Repr

/-- sim.py `Sim.validate_bid` (the human-readable reason string is presentation
and is dropped; `true` corresponds to `(True, "")`). -/
def validate_bid (tender : Tender) (rig : Rig) : Bool :=
  rig.is_available &&
  rig_matches_class rig.rig_type tender.spec.rig_type &&
  decide (rig.region = tender.spec.region) &&
  decide (tender.spec.min_condition ≤ rig.condition)

/-! ## The shared pseudo-random stream

`random.Random` is modelled as an abstract state type `R` together with one
transition function per drawing method used by the engine.  Each Python call
`rng.m(...)` becomes `M.m ... r` returning the drawn value and the successor
state; the claims hold for *every* such model, i.e. for every possible sequence
of draws. -/

structure RngModel (R : Type) where
  /-- Python `rng.gauss(mu, sigma)` -/
  gauss : ℚ → ℚ → R → ℚ × R
  /-- Python `rng.uniform(a, b)` -/
  uniform : ℚ → ℚ → R → ℚ × R
  /-- Python `rng.random()` -/
  rand : R → ℚ × R
  /-- Python `rng.triangular(low, high, mode)` -/
  triangular : ℚ → ℚ → ℚ → R → ℚ × R
  /-- Python `rng.choice(seq)` for a sequence of the given length, as the chosen index -/
  choice_idx : ℕ → R → ℕ × R
  /-- Python `rng.randint(a, b)` -/
  randint : ℤ → ℤ → R → ℤ × R

/-! ## Commodity markets (market.py)

The structures carry exactly the fields that `market.py` reads, writes or
serializes.  (`OilMarket` additionally declares constant per-region demand
numbers — `demand_sea`, `demand_india`, … — that no code reads, writes or
saves; they are omitted.)  Since every remaining field is stored by `to_dict`
and restored by `from_dict`, serialization is the identity on these
structures. -/

structure OilMarket where
  month : ℕ := 0
  oil_price : ℚ := 70
  mean_price : ℚ := 70
  reversion : ℚ := 0.08
  shock_sd : ℚ := 5
  lag_months : ℕ := 9
  oil_history : List ℚ := []
  demand_north_sea : ℚ := 2
  demand_gom : ℚ := 2.5
deriving DecidableEq, Repr

structure SteelMarket where
  month : ℕ := 0
  steel_price : ℚ := 800
  mean_price : ℚ := 800
  reversion : ℚ := 0.10
  shock_sd : ℚ := 60
  floor : ℚ := 350
  cap : ℚ := 1800
  lag_months : ℕ := 6
  steel_history : List ℚ := []
  demand_global : ℚ := 2
deriving DecidableEq, Repr

/-- Python `deque(maxlen := n)` append: keep the last `n` entries. -/
def push_bounded (maxlen : ℕ) (l : List ℚ) (x : ℚ) : List ℚ :=
  let l' := l ++ [x]
  l'.drop (l'.length - maxlen)

/-- Python `history[-lag] if len(history) >= lag else price`.  For the lags the engine
uses (9 and 6, both ≥ 1) the Python negative index `-lag` is position
`len - lag`. -/
def neg_index_price (hist : List ℚ) (lag : ℕ) (price : ℚ) : ℚ :=
  if lag ≤ hist.length ∧ 1 ≤ lag then hist.getD (hist.length - lag) price else price

/-- market.py `OilMarket.step_month`. -/
def OilMarket.step_month {R : Type} (M : RngModel R) (m : OilMarket) (r : R) :
    OilMarket × R :=
  let (shock, r') := M.gauss 0 m.shock_sd r
  let p := max 25 (min 140 (m.oil_price + m.reversion * (m.mean_price - m.oil_price) + shock))
  let hist := push_bounded 36 m.oil_history p
  let lag_price := neg_index_price hist m.lag_months p
  let mult := max 0.4 (min 1.8 ((lag_price - 30) / 50))
  ({ m with
      month := m.month + 1
      oil_price := p
      oil_history := hist
      demand_north_sea := 1.5 * mult
      demand_gom := 2.2 * mult }, r')

/-- market.py `SteelMarket.step_month`. -/
def SteelMarket.step_month {R : Type} (M : RngModel R) (m : SteelMarket) (r : R) :
    SteelMarket × R :=
  let (shock, r') := M.gauss 0 m.shock_sd r
  let p := max m.floor (min m.cap
    (m.steel_price + m.reversion * (m.mean_price - m.steel_price) + shock))
  let hist := push_bounded 36 m.steel_history p
  let lag_price := neg_index_price hist m.lag_months p
  let mult := max 0.5 (min 1.8 ((lag_price - 450) / 500))
  ({ m with
      month := m.month + 1
      steel_price := p
      steel_history := hist
      demand_global := 2 * mult }, r')

/-- Modelled from the spec: the attribute `OilMarket.oil_factor` is read by
`Sim.prepare_turn`, `tests/test_save_load.py` and `generate_saves.py` but its
definition is not part of src/market.py (the repository snapshot only ships its
callers).  Per contracts.py it is an oil-price factor "~0.6 bust .. 1.4 boom";
modelled as the current oil price relative to the $70 mean, clamped to that
band.  The claims only rely on it being a pure function of the serialized
market state. -/
def OilMarket.oil_factor (m : OilMarket) : ℚ :=
  clamp (m.oil_price / 70) 0.6 1.4

/-- Modelled from the spec: the attribute `OilMarket.demand_factor` is read by
`Sim.prepare_turn`, `Sim._record_month` and `Sim._player_auto_bid` but its
definition is not part of src/market.py.  Per the spec glossary it is "a
derived multiplier summarizing ... appetite for drilling services, driven by
lagged commodity price" ("0.5 low demand .. 1.8 high demand" in contracts.py);
modelled as the same lagged-price multiplier `step_month` applies to the
regional demand numbers.  The claims only rely on it being a pure function of
the serialized market state. -/
def OilMarket.demand_factor (m : OilMarket) : ℚ :=
  max 0.4 (min 1.8 ((neg_index_price m.oil_history m.lag_months m.oil_price - 30) / 50))

/-! ## AI bidding engine (ai.py) -/

structure AIPersonality where
  aggressiveness : ℚ
  desperation : ℚ
  quality_bias : ℚ
deriving DecidableEq, Repr

/-- ai.py `estimate_break_even_dayrate_k`, given the rig itself (the source
looks the rig up by id in `company.rigs`; its only caller passes the id of a
rig of that company, so the lookup returns exactly this rig). -/
def estimate_break_even_dayrate_k (rig : Rig) (current_year : ℤ) : ℤ :=
  let opex : ℕ := rig.opex_per_day_k current_year
  let overhead : ℤ := 12
  let age : ℤ := max 0 (current_year - rig.build_year)
  let maint : ℤ := max 0 (age - 12)
  (opex : ℤ) + overhead + maint

/-- First element of a list minimizing a key — i.e. Python's stable
`sort(key := f)` followed by taking element `[0]`. -/
def first_min_by {α β : Type} [LinearOrder β] (f : α → β) : List α → Option α
  | [] => none
  | a :: rest =>
    match first_min_by f rest with
    | none => some a
    | some b => if f a ≤ f b then some a else some b

/-- ai.py `choose_bid`.  Note the candidate filter compares `rig.rig_type`
(a `RigType`) against `tender.spec.rig_type` (a `RigClassRequired`) with plain
`==`/`!=`, embedded by `py_eq_rigtype_reqclass`. -/
def choose_bid (company : Company) (personality : AIPersonality) (tender : Tender) :
    Option (ℤ × ℕ) :=
  let current_year := tender.spec.start_date.year
  let candidates := company.rigs.filter fun rig =>
    rig.is_available &&
    decide (¬ rig.state = RigState.scrap) &&
    py_eq_rigtype_reqclass rig.rig_type tender.spec.rig_type &&
    decide (rig.region = tender.spec.region) &&
    decide (tender.spec.min_condition ≤ rig.condition)
  match first_min_by (fun r => toLex
      ((|(r.condition : ℚ) - (tender.spec.min_condition : ℚ)| * (1 - personality.quality_bias)),
        -(r.condition : ℚ))) candidates with
  | none => none
  | some rig =>
    let breakeven := estimate_break_even_dayrate_k rig current_year
    let discount := pyTrunc ((0.05 + 0.35 * personality.aggressiveness) * tender.spec.max_dayrate)
    let bid0 := tender.spec.max_dayrate - discount
    let bid1 := if company.cash_musd < 25 then min bid0 (breakeven + 8) else bid0
    let bid2 :=
      if 0.6 < personality.desperation ∧ company.cash_musd < 15 then
        min bid1 (breakeven - pyTrunc (5 * personality.desperation))
      else bid1
    let bid := min bid2 tender.spec.max_dayrate
    if bid < breakeven - 10 ∧ personality.desperation < 0.5 then none
    else some (rig.id, (max 1 bid).toNat)

/-! ## Contract generator (contracts.py)

`ContractGenConfig` fields other than `base_tenders_per_region` and `noise_max`
are set in `__post_init__` and never written anywhere (the only constructor
call is `ContractGenerator(self.rng)` with the default config), so they are
embedded as the constants below. -/

/-- Source `cfg.harsh_prob_by_region.get(region, 0.10)`. -/
def harsh_prob_by_region (region : Region) : ℚ :=
  match region with
  | .north_sea => 0.3
  | .gom => 0
  | _ => 0.10

/-- Source `cfg.base_dayrate_k`. -/
def base_dayrate_k : RigClassRequired → ℤ
  | .jackup => 120
  | .semi => 240
  | .drillship => 300
  | .semi_or_drillship => 270

/-- Source `cfg.water_depth_triangular_m` (min, mode, max). -/
def water_depth_triangular_m : ContractType → ℚ × ℚ × ℚ
  | .workover => (20, 60, 150)
  | .development => (30, 150, 800)
  | .exploration => (80, 400, 2500)

/-- Source `cfg.duration_choices_months`. -/
def duration_choices_months : ContractType → List ℕ
  | .workover => [1, 2, 3, 4]
  | .development => [6, 9, 12, 18, 24]
  | .exploration => [3, 6, 9, 12]

/-- Source `cfg.start_in_months_choices`. -/
def start_in_months_choices : List ℕ := [0, 0, 1, 1, 2, 3]

/-- contracts.py `_pick_weighted` at `cfg.type_weights`
`{WORKOVER: 0.25, DEVELOPMENT: 0.50, EXPLORATION: 0.25}` (dict insertion
order; total weight 1): walk the items accumulating weight until the scaled
draw is passed, falling back to the last item. -/
def pick_weighted_contract_type {R : Type} (M : RngModel R) (r : R) :
    ContractType × R :=
  let (u, r') := M.rand r
  let rv := u * 1
  (if rv ≤ 0.25 then ContractType.workover
   else if rv ≤ 0.75 then ContractType.development
   else ContractType.exploration, r')

/-- contracts.py `_pick_harsh`. -/
def pick_harsh {R : Type} (M : RngModel R) (region : Region) (r : R) : Bool × R :=
  let (u, r') := M.rand r
  (decide (u < harsh_prob_by_region region), r')

/-- contracts.py `_water_depth`: `int(rng.triangular(a, c, b))` for
`(a, b, c) = (min, mode, max)`. -/
def water_depth {R : Type} (M : RngModel R) (ctype : ContractType) (r : R) : ℤ × R :=
  let (a, b, c) := water_depth_triangular_m ctype
  let (d, r') := M.triangular a c b r
  (pyTrunc d, r')

/-- contracts.py `_duration_months`.  The +3 harsh bonus draw is only consumed
when `harsh and ctype != WORKOVER` (Python short-circuits). -/
def duration_months {R : Type} (M : RngModel R) (ctype : ContractType) (harsh : Bool)
    (r : R) : ℕ × R :=
  let menu := duration_choices_months ctype
  let (i, r1) := M.choice_idx menu.length r
  let months := menu.getD (i % menu.length) 0
  if harsh ∧ ctype ≠ ContractType.workover then
    let (u, r2) := M.rand r1
    (if u < 0.30 then months + 3 else months, r2)
  else (months, r1)

/-- contracts.py `_start_date`. -/
def start_date_of {R : Type} (M : RngModel R) (as_of_date : PyDate) (r : R) :
    PyDate × R :=
  let (i, r1) := M.choice_idx start_in_months_choices.length r
  let lead_months := start_in_months_choices.getD (i % start_in_months_choices.length) 0
  let (u, r2) := M.rand r1
  let base := if u < 0.85 then PyDate.mk as_of_date.year as_of_date.month 1 else as_of_date
  (add_months base lead_months, r2)

/-- contracts.py `_rig_class_and_positioning`.  The positioning draw is only
consumed for depths above 120 m. -/
def rig_class_and_positioning {R : Type} (M : RngModel R) (water_depth_m : ℤ)
    (harsh : Bool) (r : R) : (RigClassRequired × PositioningRequired) × R :=
  let rig_class :=
    if water_depth_m ≤ 120 then RigClassRequired.jackup
    else if water_depth_m ≤ 500 then RigClassRequired.semi
    else if water_depth_m ≤ 1200 then RigClassRequired.semi_or_drillship
    else RigClassRequired.drillship
  let (positioning, r') :=
    if water_depth_m ≤ 120 then (PositioningRequired.any, r)
    else if water_depth_m ≤ 500 then
      let dp_chance : ℚ := 0.15 + (if harsh then 0.25 else 0)
      let (u, r1) := M.rand r
      ((if u < dp_chance then PositioningRequired.dp_required
        else PositioningRequired.mored_ok), r1)
    else
      let dp_chance : ℚ := 0.65 + (if harsh then 0.20 else 0)
      let (u, r1) := M.rand r
      ((if u < dp_chance then PositioningRequired.dp_required
        else PositioningRequired.mored_ok), r1)
  let positioning :=
    if rig_class = RigClassRequired.jackup ∧ positioning = PositioningRequired.dp_required
    then PositioningRequired.any else positioning
  ((rig_class, positioning), r')

/-- contracts.py `_dayrate_range_k`. -/
def dayrate_range_k (rig_class : RigClassRequired) (positioning : PositioningRequired)
    (harsh : Bool) (oil_factor : ℚ) (contract_type : ContractType) : ℤ × ℤ :=
  let base := base_dayrate_k rig_class
  let mult0 := oil_factor
  let mult1 := if harsh then mult0 * 1.15 else mult0
  let mult2 := if positioning = PositioningRequired.dp_required then mult1 * 1.20 else mult1
  let mult := if contract_type = ContractType.exploration then mult2 * 1.05 else mult2
  let max_k := max 40 (pyTrunc ((base : ℚ) * mult))
  let floor_frac : ℚ := if contract_type = ContractType.exploration then 0.70 else 0.75
  let min_k0 := max 30 (pyTrunc ((max_k : ℚ) * floor_frac))
  let min_k := if max_k ≤ min_k0 then max_k - 5 else min_k0
  (min_k, max_k)

/-- contracts.py `_early_termination_penalty_k`. -/
def early_termination_penalty_k (dayrate_k_max : ℤ) (dur_months : ℕ)
    (contract_type : ContractType) (harsh : Bool) : ℤ :=
  let penalty_months0 : ℕ :=
    match contract_type with
    | .workover => 1
    | .exploration => 2
    | .development => 3
  let penalty_months1 := if harsh then penalty_months0 + 1 else penalty_months0
  let penalty_months := min penalty_months1 (max 1 dur_months)
  let penalty_k := dayrate_k_max * 30 * penalty_months
  max penalty_k 1500

/-- contracts.py `generate_tick`, per-tender `min_condition` by contract type. -/
def min_condition_for : ContractType → ℕ
  | .exploration => 75
  | .development => 65
  | .workover => 50

/-- One iteration of the `generate_tick` loop body. -/
def gen_tender {R : Type} (M : RngModel R) (regions : List Region) (as_of_date : PyDate)
    (oil_factor : ℚ) (cid : ℤ) (r : R) : Tender × R :=
  let (ri, r1) := M.choice_idx regions.length r
  let region := regions.getD (ri % regions.length) Region.north_sea
  let (ctype, r2) := pick_weighted_contract_type M r1
  let (harsh, r3) := pick_harsh M region r2
  let (wd, r4) := water_depth M ctype r3
  let (cp, r5) := rig_class_and_positioning M wd harsh r4
  let (dur, r6) := duration_months M ctype harsh r5
  let (start, r7) := start_date_of M as_of_date r6
  let (mn, mx) := dayrate_range_k cp.1 cp.2 harsh oil_factor ctype
  let penalty := early_termination_penalty_k mx dur ctype harsh
  (⟨cid,
    { contract_type := ctype
      region := region
      start_date := start
      months := dur
      water_depth_m := wd
      harsh := harsh
      rig_type := cp.1
      positioning_required := cp.2
      min_condition := min_condition_for ctype
      min_dayrate := mn
      max_dayrate := mx
      early_termination_penalty_k := penalty }⟩, r7)

/-- The `for _ in range(n)` loop of `generate_tick`. -/
def gen_loop {R : Type} (M : RngModel R) (regions : List Region) (as_of_date : PyDate)
    (oil_factor : ℚ) : ℕ → ℤ → R → (List Tender × ℤ) × R
  | 0, cid, r => (([], cid), r)
  | n + 1, cid, r =>
    let (t, r') := gen_tender M regions as_of_date oil_factor cid r
    let (p, r'') := gen_loop M regions as_of_date oil_factor n (cid + 1) r'
    ((t :: p.1, p.2), r'')

/-- contracts.py `ContractGenerator.generate_tick`.  (`base_n` in the source is
computed but never used.) -/
def generate_tick {R : Type} (M : RngModel R) (regions : List Region)
    (next_contract_id : ℤ) (as_of_date : PyDate) (oil_factor demand_factor : ℚ)
    (r : R) : (List Tender × ℤ) × R :=
  let (u, r0) := M.uniform (-1.2) 1.2 r
  let val := 1.5 * demand_factor + u
  let n := (max 0 (min 3 (pyRound val))).toNat
  gen_loop M regions as_of_date oil_factor n next_contract_id r0

/-! ## Rig-resale generator (rig_market.py) -/

structure RigForSale where
  rig : Rig
  price_musd : ℚ
deriving DecidableEq, Repr

structure RigForSaleDict where
  rig : RigDict
  price_musd : ℚ
deriving DecidableEq, Repr

/-- models.py `RigForSale.to_dict`. -/
def RigForSale.to_dict (f : RigForSale) : RigForSaleDict :=
  ⟨f.rig.to_dict, f.price_musd⟩

/-- models.py `RigForSale.from_dict`. -/
def RigForSale.from_dict (d : RigForSaleDict) : RigForSale :=
  ⟨Rig.from_dict d.rig, d.price_musd⟩

/-- rig_market.py `RigMarketGenerator._generate_one`.  `rng.choice(list(RigType))`
and `rng.choice(list(Region))` pick from the enums in declaration order;
`randint` results are within their ranges, so the `toNat` on the condition is
lossless. -/
def rig_market_generate_one {R : Type} (M : RngModel R) (current_year : ℤ)
    (steel_price : ℚ) (rig_id : ℤ) (r : R) : RigForSale × R :=
  let (ti, r1) := M.choice_idx 3 r
  let rtype := [RigType.jackup, RigType.semi, RigType.drillship].getD (ti % 3) RigType.jackup
  let (age, r2) := M.randint 5 35 r1
  let build_year := current_year - age
  let (condition, r3) := M.randint 30 90 r2
  let (rgi, r4) := M.choice_idx 6 r3
  let region := [Region.north_sea, Region.gom, Region.brazil, Region.west_africa,
    Region.se_asia, Region.australia].getD (rgi % 6) Region.north_sea
  let (locN, r5) := M.randint 1 20 r4
  let (modN, r6) := M.randint 1 15 r5
  let rig : Rig :=
    { id := rig_id
      rig_type := rtype
      build_year := build_year
      condition := condition.toNat
      region := region
      state := RigState.cold
      location_id := some (toString locN)
      model_id := some (toString modN) }
  let base_price : ℚ :=
    if rtype = RigType.drillship then 220 else if rtype = RigType.semi then 150 else 60
  let age_factor : ℚ := 1 - (age : ℚ) * 0.02
  let condition_factor : ℚ := 0.5 + ((condition : ℚ) / 100) * 0.7
  let market_factor : ℚ := steel_price / 800
  let price := max 5 (pyRound1 (base_price * age_factor * condition_factor * market_factor))
  (⟨rig, price⟩, r6)

/-- The `for _ in range(n)` loop of rig_market.py `generate_tick`. -/
def rig_market_loop {R : Type} (M : RngModel R) (current_year : ℤ) (steel_price : ℚ) :
    ℕ → ℤ → R → (List RigForSale × ℤ) × R
  | 0, rid, r => (([], rid), r)
  | n + 1, rid, r =>
    let (f, r') := rig_market_generate_one M current_year steel_price rid r
    let (p, r'') := rig_market_loop M current_year steel_price n (rid + 1) r'
    ((f :: p.1, p.2), r'')

/-- rig_market.py `RigMarketGenerator.generate_tick` (it draws from the
generator's own private rng, not the simulation's shared one). -/
def rig_market_generate_tick {R : Type} (M : RngModel R) (current_year : ℤ)
    (steel_price : ℚ) (next_rig_id : ℤ) (r : R) : (List RigForSale × ℤ) × R :=
  let (u, r0) := M.uniform (-1) 1 r
  let val := 0.8 + u
  let n := (max 0 (min 3 (pyRound val))).toNat
  rig_market_loop M current_year steel_price n next_rig_id r0

/-! ## The simulation (sim.py) -/

/-- Source `Sim.__init__` keys `self.ai_personalities` by the two AI company names; a
lookup under any other name raises `KeyError` in Python (the roster only ever
contains these two names; the fallback personality is never reached by any
claim). -/
def ai_personality_for (name : String) : AIPersonality :=
  if name = "Stack&Pray Drilling" then ⟨0.75, 0.55, 0.2⟩
  else if name = "Bluewater Titans" then ⟨0.35, 0.25, 0.6⟩
  else ⟨0, 0, 0⟩

/-- Python `{t_id: (r_id, rate) for t_id, r_id, rate in player_bids}` followed by a
key lookup: the last tuple for a tender id wins. -/
def p_bid_lookup (player_bids : List (ℤ × ℤ × ℕ)) (t_id : ℤ) : Option (ℤ × ℕ) :=
  player_bids.foldl (fun acc b => if b.1 = t_id then some b.2 else acc) none

structure BidEntry where
  company : String
  rig_id : ℤ
  dayrate : ℕ
deriving DecidableEq, Repr

/-- Source `next(x for x in self.all_companies if x.name == company_name)` (raises in
Python when absent; every bid carries the name of a listed company). -/
def find_company (cs : List Company) (name : String) : Option Company :=
  cs.find? fun c => decide (c.name = name)

def reputation_of (cs : List Company) (name : String) : ℚ :=
  ((find_company cs name).map Company.reputation).getD 0

/-- The auction score of `Sim._award_contracts`:
`dayrate + (1.0 - comp.reputation) * 4.0`. -/
def score_bid (cs : List Company) (b : BidEntry) : ℚ :=
  (b.dayrate : ℚ) + (1 - reputation_of cs b.company) * 4.0

/-- Source `scored.sort(key = lambda x: x[0]); scored[0]`: Python's sort is stable, so
this is the first bid attaining the minimal score. -/
def select_winner (cs : List Company) (bids : List BidEntry) : Option BidEntry :=
  first_min_by (score_bid cs) bids

/-- Mutation of the first rig with a given id
(`next(r for r in comp.rigs if r.id == rig_id)`). -/
def update_rig_by_id : List Rig → ℤ → (Rig → Rig) → List Rig
  | [], _, _ => []
  | r :: rs, i, f => if r.id = i then f r :: rs else r :: update_rig_by_id rs i f

/-- Mutation of the first company with a given name. -/
def update_company_by_name : List Company → String → (Company → Company) → List Company
  | [], _, _ => []
  | c :: cs, n, f => if c.name = n then f c :: cs else c :: update_company_by_name cs n f

structure Award where
  tender_id : ℤ
  region : Region
  winner : String
  rig_id : ℤ
  dayrate_k : ℕ
  months : ℕ
deriving DecidableEq, Repr

/-- The rig mutation applied to an auction winner. -/
def apply_award_to_rig (t : Tender) (dayrate : ℕ) (r : Rig) : Rig :=
  { r with
      on_contract_months_left := t.spec.months
      contract_dayrate := dayrate
      state := RigState.active
      contract_id := some t.id }

/-- The bid list assembled per tender by `Sim._award_contracts`: the player's
externally supplied bid first (if any — unvalidated), then the AI bids in
company order. -/
def collect_bids (player_bids : List (ℤ × ℤ × ℕ)) (t : Tender)
    (player : Company) (ais : List Company) : List BidEntry :=
  (match p_bid_lookup player_bids t.id with
   | some (rid, rate) => [⟨player.name, rid, rate⟩]
   | none => []) ++
  ais.filterMap fun ai =>
    (choose_bid ai (ai_personality_for ai.name) t).map fun b => ⟨ai.name, b.1, b.2⟩

/-- One iteration of the `for t in tenders` loop of `Sim._award_contracts`:
gather the player bid (if any — unvalidated) and the AI bids, score them, pick
the stable minimum, and mutate the winning rig. -/
def award_one_tender (player_bids : List (ℤ × ℤ × ℕ)) (t : Tender)
    (player : Company) (ais : List Company) :
    Option Award × Company × List Company :=
  match select_winner (player :: ais) (collect_bids player_bids t player ais) with
  | none => (none, player, ais)
  | some w =>
    let all' := update_company_by_name (player :: ais) w.company fun c =>
      { c with rigs := update_rig_by_id c.rigs w.rig_id (apply_award_to_rig t w.dayrate) }
    match all' with
    | p' :: a' =>
      (some ⟨t.id, t.spec.region, w.company, w.rig_id, w.dayrate, t.spec.months⟩, p', a')
    | [] => (none, player, ais)

/-- sim.py `Sim._award_contracts`: tenders are resolved sequentially, each
award mutating the companies seen by later tenders. -/
def award_contracts : List Tender → List (ℤ × ℤ × ℕ) → Company → List Company →
    List Award × Company × List Company
  | [], _, p, a => ([], p, a)
  | t :: ts, pb, p, a =>
    let x := award_one_tender pb t p a
    let y := award_contracts ts pb x.2.1 x.2.2
    (match x.1 with
     | some aw => aw :: y.1
     | none => y.1, y.2.1, y.2.2)

/-- The end-of-contract bookkeeping of `Sim._settle_month_cashflows` for one
rig: decrement remaining months and, on reaching zero, clear the day-rate and
contract reference and release the rig to ACTIVE. -/
def settle_contract_rig (r : Rig) : Rig :=
  if r.state = RigState.scrap then r
  else if 0 < r.on_contract_months_left then
    let m' := r.on_contract_months_left - 1
    if m' = 0 then
      { r with
          on_contract_months_left := 0
          contract_dayrate := 0
          state := RigState.active
          contract_id := none }
    else { r with on_contract_months_left := m' }
  else r

/-- Monthly revenue of one rig, in MUSD (`(contract_dayrate * 30) / 1000`). -/
def rig_month_revenue_musd (r : Rig) : ℚ :=
  if r.state = RigState.scrap then 0
  else if 0 < r.on_contract_months_left then ((r.contract_dayrate : ℚ) * 30) / 1000
  else 0

/-- Monthly cost of one rig, in MUSD: contracted rigs pay opex, idle rigs pay
the stacking cost, scrapped rigs pay nothing. -/
def rig_month_cost_musd (current_year : ℤ) (r : Rig) : ℚ :=
  if r.state = RigState.scrap then 0
  else if 0 < r.on_contract_months_left then
    ((r.opex_per_day_k current_year : ℚ) * 30) / 1000
  else (r.stacking_cost_per_month_k : ℚ) / 1000

/-- sim.py `Sim._settle_month_cashflows`, restricted to one company (the
source loops over `all_companies` applying exactly this to each). -/
def settle_company (current_year : ℤ) (c : Company) : Company :=
  let rev_musd := (c.rigs.map rig_month_revenue_musd).sum
  let cost_rigs := (c.rigs.map (rig_month_cost_musd current_year)).sum
  let cost_musd := if 0 < c.debt_musd then cost_rigs + c.debt_musd * 0.01 else cost_rigs
  { c with
      cash_musd := c.cash_musd + (rev_musd - cost_musd)
      rigs := c.rigs.map settle_contract_rig }

/-- sim.py `Sim.update_rig_state`: the transition table with its costs
(`None` = "Unsupported transition").  The COLD→ACTIVE and ACTIVE→COLD entries
are the sums of their two legs, as in the source. -/
def transition_cost_musd (rt : RigType) : RigState → RigState → Option ℚ
  | .cold, .warm => some (if rt = RigType.jackup then 1.2 else 3.5)
  | .warm, .active => some (if rt = RigType.jackup then 0.3 else 0.8)
  | .active, .warm => some 0.05
  | .warm, .cold => some 0.2
  | .cold, .active => some (if rt = RigType.jackup then 1.2 + 0.3 else 3.5 + 0.8)
  | .active, .cold => some (0.05 + 0.2)
  | _, _ => none

/-- sim.py `Sim.update_rig_state` acting on the player company (message
strings dropped; `false` = rejection with no mutation). -/
def update_rig_state (c : Company) (rig_id : ℤ) (new_state : RigState) :
    Bool × Company :=
  match c.rigs.find? (fun r => decide (r.id = rig_id)) with
  | none => (false, c)
  | some rig =>
    if 0 < rig.on_contract_months_left then (false, c)
    else if rig.state = new_state then (false, c)
    else
      match transition_cost_musd rig.rig_type rig.state new_state with
      | none => (false, c)
      | some cost =>
        if c.cash_musd < cost then (false, c)
        else (true,
          { c with
              cash_musd := c.cash_musd - cost
              rigs := update_rig_by_id c.rigs rig_id fun r => { r with state := new_state } })

/-- sim.py `Sim.scrap_rig`. -/
def scrap_rig (c : Company) (rig_id : ℤ) : Bool × Company :=
  match c.rigs.find? (fun r => decide (r.id = rig_id)) with
  | none => (false, c)
  | some rig =>
    if 0 < rig.on_contract_months_left then (false, c)
    else
      let base : ℚ :=
        if rig.rig_type = RigType.drillship then 8
        else if rig.rig_type = RigType.semi then 5 else 2.5
      let condition_mult : ℚ := 0.4 + ((rig.condition : ℚ) / 100) * 0.6
      let payout := pyRound1 (base * condition_mult)
      (true,
        { c with
            cash_musd := c.cash_musd + payout
            rigs := c.rigs.filter fun r => decide (¬ r.id = rig_id) })

/-- sim.py `Sim.mobilize_rig`. -/
def mobilize_rig (c : Company) (rig_id : ℤ) (target : Region) : Bool × Company :=
  match c.rigs.find? (fun r => decide (r.id = rig_id)) with
  | none => (false, c)
  | some rig =>
    if 0 < rig.on_contract_months_left then (false, c)
    else if rig.region = target ∧ rig.transit_months_left = 0 then (false, c)
    else if c.cash_musd < 2.5 then (false, c)
    else (true,
      { c with
          cash_musd := c.cash_musd - 2.5
          rigs := update_rig_by_id c.rigs rig_id fun r =>
            { r with transit_months_left := 1, target_region := some target } })

/-- The transit-progress block of `Sim.resolve_turn` for one rig.  The source
assigns `r.region = r.target_region` when the counter reaches zero; under the
§3 invariant (a rig in transit has a target region) `target_region` is `some`,
so `getD` coincides with the source while keeping `region` total. -/
def transit_step_rig (r : Rig) : Rig :=
  if 0 < r.transit_months_left then
    let t' := r.transit_months_left - 1
    if t' = 0 then
      { r with
          transit_months_left := 0
          region := r.target_region.getD r.region
          target_region := none }
    else { r with transit_months_left := t' }
  else r

def transit_step_company (c : Company) : Company :=
  { c with rigs := c.rigs.map transit_step_rig }

/-- The in-memory state of a `Sim` object, carrying every field the turn
pipeline reads or writes.  `market_history`/`company_history` (analytics
logs), `output_dir` (filesystem path) and `cfg.months` (only the auto-run loop
bound) are not part of this state; `cfg.start_year` is. -/
structure SimState (R : Type) where
  rng : R
  start_year : ℤ
  oil_market : OilMarket
  steel_market : SteelMarket
  contract_id_seq : ℤ
  rig_id_seq : ℤ
  player : Company
  ai_companies : List Company
  current_tenders : List Tender
  current_rigs_for_sale : List RigForSale
  rig_market_rng : R
  gen_base_tenders_per_region : ℚ
  gen_noise_max : ℚ
deriving DecidableEq

def sim_all_companies {R : Type} (s : SimState R) : List Company :=
  s.player :: s.ai_companies

/-- sim.py `Sim.to_dict` (the `meta` block holds only wall-clock strings).
`random.getstate`/`setstate` are lossless, so the serialized rng states are
kept as the abstract states themselves. -/
structure SimSave (R : Type) where
  save_version : ℕ
  rng_state : R
  time_month : ℕ
  oil : OilMarket
  steel : SteelMarket
  rigs : List RigDict
  companies : List CompanyDict
  contract_id_seq : ℤ
  rig_id_seq : ℤ
  current_rigs_for_sale : List RigForSaleDict
  gen_base_tenders_per_region : ℚ
  gen_noise_max : ℚ
  rig_market_rng_state : R
deriving DecidableEq

def sim_to_dict {R : Type} (s : SimState R) : SimSave R where
  save_version := 1
  rng_state := s.rng
  time_month := s.oil_market.month
  oil := s.oil_market
  steel := s.steel_market
  rigs := ((sim_all_companies s).flatMap Company.rigs).map Rig.to_dict
  companies := (sim_all_companies s).map Company.to_dict
  contract_id_seq := s.contract_id_seq
  rig_id_seq := s.rig_id_seq
  current_rigs_for_sale := s.current_rigs_for_sale.map RigForSale.to_dict
  gen_base_tenders_per_region := s.gen_base_tenders_per_region
  gen_noise_max := s.gen_noise_max
  rig_market_rng_state := s.rig_market_rng

/-- sim.py `Sim.load`: build a fresh sim from `SimConfig(seed := 0)` — whose
`months`/`start_year` keep the dataclass defaults (36, 2025) — then overwrite
the serialized parts.  `current_tenders` is not serialized, so it stays at the
fresh-constructor value `[]`.  `next(c for c in all if c.name == "PlayerCo")`
raises in Python when absent; saves written by `to_dict` always contain the
player, and the fallback company below is never reached for them. -/
def sim_load {R : Type} (d : SimSave R) : SimState R :=
  let all_rigs := d.rigs.map Rig.from_dict
  let all_companies := d.companies.map fun c =>
    Company.from_dict c (rig_map_lookup all_rigs)
  { rng := d.rng_state
    start_year := 2025
    oil_market := d.oil
    steel_market := d.steel
    contract_id_seq := d.contract_id_seq
    rig_id_seq := d.rig_id_seq
    player := (all_companies.find? fun c => decide (c.name = "PlayerCo")).getD
      ⟨0, "", 0, [], 0, 0⟩
    ai_companies := all_companies.filter fun c => decide (¬ c.name = "PlayerCo")
    current_tenders := []
    current_rigs_for_sale := d.current_rigs_for_sale.map RigForSale.from_dict
    rig_market_rng := d.rig_market_rng_state
    gen_base_tenders_per_region := d.gen_base_tenders_per_region
    gen_noise_max := d.gen_noise_max }

/-- sim.py `Sim.prepare_turn`: step both markets, generate the month's tenders
from the oil market's signals, and generate the resale listings from the steel
price.  `none` models the `date()` constructor raising (year outside
1..9999). -/
def prepare_turn {R : Type} (M : RngModel R) (s : SimState R) :
    Option (List Tender × SimState R) :=
  let (oil', r1) := s.oil_market.step_month M s.rng
  let (steel', r2) := s.steel_market.step_month M r1
  let year := s.start_year + (oil'.month / 12 : ℕ)
  let month := oil'.month % 12 + 1
  match mk_date year month 1 with
  | none => none
  | some as_of_date =>
    let (tc, r3) := generate_tick M [Region.north_sea, Region.gom] s.contract_id_seq
      as_of_date oil'.oil_factor oil'.demand_factor r2
    let (fr, mr') := rig_market_generate_tick M (s.start_year + (oil'.month / 12 : ℕ))
      steel'.steel_price s.rig_id_seq s.rig_market_rng
    some (tc.1,
      { s with
          rng := r3
          oil_market := oil'
          steel_market := steel'
          contract_id_seq := tc.2
          current_tenders := tc.1
          current_rigs_for_sale := fr.1
          rig_id_seq := fr.2
          rig_market_rng := mr' })

/-- sim.py `Sim.resolve_turn`: award contracts, settle cashflows, advance
transit.  `_record_month` (history log) and `_save_turn_files` (checkpoint
I/O) have no effect on this state. -/
def resolve_turn {R : Type} (player_bids : List (ℤ × ℤ × ℕ)) (s : SimState R) :
    List Award × SimState R :=
  let x := award_contracts s.current_tenders player_bids s.player s.ai_companies
  let year := s.start_year + (s.oil_market.month / 12 : ℕ)
  let p2 := settle_company year x.2.1
  let a2 := x.2.2.map (settle_company year)
  (x.1, { s with
      player := transit_step_company p2
      ai_companies := a2.map transit_step_company })

/-- One full turn as driven by `Sim.run` and the CLI: `prepare_turn`, external
bid collection, `resolve_turn`.  The unreachable date-overflow failure of
`prepare_turn` is modelled as a no-op. -/
def sim_turn {R : Type} (M : RngModel R) (player_bids : List (ℤ × ℤ × ℕ))
    (s : SimState R) : SimState R :=
  match prepare_turn M s with
  | some ts => (resolve_turn player_bids ts.2).2
  | none => s

/-- Run `n` further turns, the turn driver supplying bids `bids k` at turn `k`. -/
def run_turns {R : Type} (M : RngModel R) (bids : ℕ → List (ℤ × ℤ × ℕ)) :
    ℕ → SimState R → SimState R
  | 0, s => s
  | n + 1, s => sim_turn M (bids n) (run_turns M bids n s)

/-- The observed fields of the determinism property: oil price, player cash,
contract-id sequence counter. -/
def observed_fields {R : Type} (s : SimState R) : ℚ × ℚ × ℤ :=
  (s.oil_market.oil_price, s.player.cash_musd, s.contract_id_seq)

/-! # Claims -/

/-! ## C10 — rig serialization round-trip -/

/-- Claim C10: serializing a rig with `Rig.to_dict` and deserializing with
`Rig.from_dict` restores every field, even though `to_dict` conditionally
omits zero/null fields (transit months, target region, contract months,
dayrate, contract id, location id, model id, company id): restoration
defaults each omitted field to the original zero/null value. -/
theorem claim_C10_rig_roundtrip (r : Rig) : Rig.from_dict (Rig.to_dict r) = r :=
  Rig.from_dict_to_dict r

/-! ## C3 — the AI candidate filter never matches any rig -/

/-- Fixture for C3: a semi-submersible that is available (ACTIVE, no contract,
no transit), not scrapped, in the tender's region, and above the tender's
minimum condition. -/
def c3_rig : Rig :=
  { id := 102
    rig_type := RigType.semi
    build_year := 2016
    condition := 82
    region := Region.north_sea
    state := RigState.active }

def c3_company : Company :=
  { id := 10
    name := "Stack&Pray Drilling"
    cash_musd := 40
    rigs := [c3_rig]
    debt_musd := 0
    reputation := 0.5 }

/-- Fixture for C3: a tender whose required class SEMI_OR_DRILLSHIP is matched
by `c3_rig` under `rig_matches_class`. -/
def c3_tender : Tender :=
  ⟨1,
    { contract_type := ContractType.development
      region := Region.north_sea
      start_date := ⟨2025, 3, 1⟩
      months := 12
      water_depth_m := 600
      harsh := false
      rig_type := RigClassRequired.semi_or_drillship
      positioning_required := PositioningRequired.mored_ok
      min_condition := 65
      min_dayrate := 180
      max_dayrate := 240
      early_termination_penalty_k := 21600 }⟩

/-- Claim C3 (code bug): the AI bidding engine's candidate set should be the
company's rigs that are available, not scrapped, class-matching (a semi-sub
matches SEMI_OR_DRILLSHIP per `rig_matches_class`), region-matching and above
the minimum condition — but `ai.choose_bid` filters with
`rig.rig_type != tender.spec.rig_type`, an equality test between a `RigType`
and a `RigClassRequired` that no pair of members satisfies, so a fully
eligible rig yields no bid: the engine abstains although the claim's candidate
set is non-empty and the bid economics are fine. -/
theorem claim_C3_ai_filter_code_bug :
    choose_bid c3_company (ai_personality_for c3_company.name) c3_tender = none ∧
    rig_matches_class c3_rig.rig_type c3_tender.spec.rig_type = true ∧
    c3_rig.is_available = true ∧
    c3_rig.state ≠ RigState.scrap ∧
    c3_rig.region = c3_tender.spec.region ∧
    c3_tender.spec.min_condition ≤ c3_rig.condition := by
  decide

/-! ## C5 — player bids are not re-validated during turn resolution -/

/-- Fixture for C5: the spec's scenario rig — condition 58, region GOM, type
JACKUP, available. -/
def c5_rig : Rig :=
  { id := 2
    rig_type := RigType.jackup
    build_year := 2010
    condition := 58
    region := Region.gom
    state := RigState.active }

def c5_player : Company :=
  { id := 1
    name := "PlayerCo"
    cash_musd := 55
    rigs := [c5_rig]
    debt_musd := 0
    reputation := 0.55 }

/-- Fixture for C5: a tender requiring minimum condition 65. -/
def c5_tender : Tender :=
  ⟨7,
    { contract_type := ContractType.development
      region := Region.gom
      start_date := ⟨2025, 4, 1⟩
      months := 9
      water_depth_m := 80
      harsh := false
      rig_type := RigClassRequired.jackup
      positioning_required := PositioningRequired.any
      min_condition := 65
      min_dayrate := 90
      max_dayrate := 120
      early_termination_penalty_k := 10800 }⟩

/-- Counterexample to C5: `Sim._award_contracts` gathers the externally
supplied player bid without calling `validate_bid`, so the condition-58 rig
(rejected by `validate_bid` against the min-condition-65 tender) wins the
award and is put on contract. -/
theorem claim_C5_counterexample :
    validate_bid c5_tender c5_rig = false ∧
    (award_contracts [c5_tender] [(7, 2, 100)] c5_player []).1 =
      [⟨7, Region.gom, "PlayerCo", 2, 100, 9⟩] ∧
    ((award_contracts [c5_tender] [(7, 2, 100)] c5_player []).2.1.rigs.map
        Rig.on_contract_months_left) = [9] := by
  decide

/-- Claim C5 as amended: eligibility is enforced at bid-collection time only —
the CLI gate `Sim.validate_bid` accepts a bid exactly when the rig is
available, class-matches the tender, is in the tender's region, and meets the
minimum condition (so through the CLI an ineligible rig is never submitted);
`resolve_turn`/`_award_contracts` themselves do not re-validate, as the
counterexample shows. -/
theorem claim_C5_validate_bid_eligibility (t : Tender) (r : Rig) :
    validate_bid t r = true ↔
      (r.is_available = true ∧
       rig_matches_class r.rig_type t.spec.rig_type = true ∧
       r.region = t.spec.region ∧
       t.spec.min_condition ≤ r.condition) := by
  simp [validate_bid, and_assoc]

/-! ## C6 — cashflow settlement -/

theorem sum_map_sub {α : Type} (l : List α) (f g : α → ℚ) :
    (l.map fun x => f x - g x).sum = (l.map f).sum - (l.map g).sum := by
  induction l with
  | nil => simp
  | cons x t ih => simp [ih]; ring

/-- Claim C6: one cashflow settlement changes a company's cash by exactly the
sum over non-scrapped rigs of contract revenue minus opex for contracted rigs
and minus the stacking cost for idle rigs, minus 1% monthly interest on
positive debt; no other company field (debt, reputation, name, id) changes,
the rigs are transformed pointwise, and a contracted rig whose remaining
months reach zero has its dayrate cleared, its contract reference nulled and
its state set to ACTIVE (while other contracted rigs just count down and
idle/scrapped rigs are untouched). -/
theorem claim_C6_settlement (current_year : ℤ) (c : Company) :
    (settle_company current_year c).cash_musd =
      c.cash_musd +
        (((c.rigs.map fun r =>
            if r.state = RigState.scrap then 0
            else if 0 < r.on_contract_months_left then
              ((r.contract_dayrate : ℚ) * 30) / 1000
                - ((r.opex_per_day_k current_year : ℚ) * 30) / 1000
            else -((r.stacking_cost_per_month_k : ℚ) / 1000)).sum)
          - (if 0 < c.debt_musd then c.debt_musd * 0.01 else 0)) ∧
    (settle_company current_year c).debt_musd = c.debt_musd ∧
    (settle_company current_year c).reputation = c.reputation ∧
    (settle_company current_year c).name = c.name ∧
    (settle_company current_year c).id = c.id ∧
    (settle_company current_year c).rigs = c.rigs.map settle_contract_rig ∧
    (∀ r : Rig, r.state ≠ RigState.scrap → r.on_contract_months_left = 1 →
      (settle_contract_rig r).contract_dayrate = 0 ∧
      (settle_contract_rig r).contract_id = none ∧
      (settle_contract_rig r).state = RigState.active ∧
      (settle_contract_rig r).on_contract_months_left = 0) ∧
    (∀ r : Rig, r.state ≠ RigState.scrap → 1 < r.on_contract_months_left →
      (settle_contract_rig r).on_contract_months_left = r.on_contract_months_left - 1 ∧
      (settle_contract_rig r).contract_dayrate = r.contract_dayrate ∧
      (settle_contract_rig r).state = r.state ∧
      (settle_contract_rig r).contract_id = r.contract_id) ∧
    (∀ r : Rig, r.on_contract_months_left = 0 ∨ r.state = RigState.scrap →
      settle_contract_rig r = r) := by
  refine ⟨?_, rfl, rfl, rfl, rfl, rfl, ?_, ?_, ?_⟩
  · have hmap : (c.rigs.map fun r =>
        if r.state = RigState.scrap then (0 : ℚ)
        else if 0 < r.on_contract_months_left then
          ((r.contract_dayrate : ℚ) * 30) / 1000
            - ((r.opex_per_day_k current_year : ℚ) * 30) / 1000
        else -((r.stacking_cost_per_month_k : ℚ) / 1000)) =
        c.rigs.map fun r =>
          rig_month_revenue_musd r - rig_month_cost_musd current_year r := by
      apply List.map_congr_left
      intro r _
      unfold rig_month_revenue_musd rig_month_cost_musd
      split_ifs <;> ring
    rw [hmap, sum_map_sub]
    unfold settle_company
    split_ifs <;> ring
  · intro r hscrap hone
    unfold settle_contract_rig
    rw [if_neg hscrap, if_pos (by omega : 0 < r.on_contract_months_left)]
    simp [hone]
  · intro r hscrap hgt
    unfold settle_contract_rig
    rw [if_neg hscrap, if_pos (by omega : 0 < r.on_contract_months_left)]
    rw [if_neg (by omega : ¬ r.on_contract_months_left - 1 = 0)]
    exact ⟨rfl, rfl, rfl, rfl⟩
  · intro r h
    unfold settle_contract_rig
    rcases h with h | h
    · split_ifs <;> first | rfl | omega
    · rw [if_pos h]

/-- Fixture for the C6 witness: a contracted rig in its last month. -/
def c6_rig : Rig :=
  { id := 1
    rig_type := RigType.jackup
    build_year := 2017
    condition := 78
    region := Region.north_sea
    state := RigState.active
    on_contract_months_left := 1
    contract_dayrate := 100
    contract_id := some 5 }

def c6_company : Company :=
  { id := 1
    name := "PlayerCo"
    cash_musd := 55
    rigs := [c6_rig]
    debt_musd := 10
    reputation := 0.55 }

theorem claim_C6_settlement_witness :
    (settle_contract_rig c6_rig).contract_dayrate = 0 ∧
    (settle_contract_rig c6_rig).contract_id = none ∧
    (settle_contract_rig c6_rig).state = RigState.active ∧
    (settle_contract_rig c6_rig).on_contract_months_left = 0 :=
  (claim_C6_settlement 2025 c6_company).2.2.2.2.2.2.1 c6_rig (by decide) (by decide)

/-! ## C7 — rig lifecycle state machine -/

/-- Claim C7: `update_rig_state` rejects, with no mutation, every transition
outside the legal table COLD↔WARM, WARM↔ACTIVE, COLD↔ACTIVE, ACTIVE↔COLD,
every transition of a rig under contract, and every unaffordable transition;
every legal, affordable transition of an uncontracted rig succeeds, sets the
new state on that rig only, and deducts exactly the tabulated cost, the
combined COLD↔ACTIVE transitions costing the sum of their two legs. -/
theorem claim_C7_update_rig_state (c : Company) (rig_id : ℤ) (new_state : RigState) :
    (∀ c', update_rig_state c rig_id new_state = (false, c') → c' = c) ∧
    (∀ rt : RigType, ∀ a b : RigState,
      (transition_cost_musd rt a b).isSome = true ↔
        ((a = RigState.cold ∧ b = RigState.warm) ∨
         (a = RigState.warm ∧ b = RigState.cold) ∨
         (a = RigState.warm ∧ b = RigState.active) ∨
         (a = RigState.active ∧ b = RigState.warm) ∨
         (a = RigState.cold ∧ b = RigState.active) ∨
         (a = RigState.active ∧ b = RigState.cold))) ∧
    (∀ rt : RigType, ∃ x y : ℚ,
      transition_cost_musd rt RigState.cold RigState.warm = some x ∧
      transition_cost_musd rt RigState.warm RigState.active = some y ∧
      transition_cost_musd rt RigState.cold RigState.active = some (x + y)) ∧
    (∀ rt : RigType, ∃ x y : ℚ,
      transition_cost_musd rt RigState.active RigState.warm = some x ∧
      transition_cost_musd rt RigState.warm RigState.cold = some y ∧
      transition_cost_musd rt RigState.active RigState.cold = some (x + y)) ∧
    (∀ r, c.rigs.find? (fun r' => decide (r'.id = rig_id)) = some r →
      ((0 < r.on_contract_months_left →
          update_rig_state c rig_id new_state = (false, c)) ∧
       (transition_cost_musd r.rig_type r.state new_state = none →
          update_rig_state c rig_id new_state = (false, c)) ∧
       (∀ cost : ℚ, transition_cost_musd r.rig_type r.state new_state = some cost →
          r.on_contract_months_left = 0 →
          ((c.cash_musd < cost → update_rig_state c rig_id new_state = (false, c)) ∧
           (cost ≤ c.cash_musd →
              update_rig_state c rig_id new_state = (true,
                { c with
                    cash_musd := c.cash_musd - cost
                    rigs := update_rig_by_id c.rigs rig_id
                      fun r' => { r' with state := new_state } })))))) := by
  have hdiag : ∀ (rt : RigType) (a : RigState), transition_cost_musd rt a a = none := by
    intro rt a; cases a <;> rfl
  refine ⟨?_, ?_, ?_, ?_, ?_⟩
  · intro c' h
    rcases hf : c.rigs.find? (fun r' => decide (r'.id = rig_id)) with _ | r
    · simp only [update_rig_state, hf] at h
      exact (congrArg Prod.snd h).symm
    · simp only [update_rig_state, hf] at h
      split_ifs at h with h1 h2
      · exact (congrArg Prod.snd h).symm
      · exact (congrArg Prod.snd h).symm
      · rcases hc : transition_cost_musd r.rig_type r.state new_state with _ | cost
        · simp only [hc] at h
          exact (congrArg Prod.snd h).symm
        · simp only [hc] at h
          split_ifs at h with h3
          · exact (congrArg Prod.snd h).symm
          · exact absurd (congrArg Prod.fst h) (by simp)
  · intro rt a b; cases a <;> cases b <;> simp [transition_cost_musd]
  · intro rt; cases rt
    · exact ⟨1.2, 0.3, rfl, rfl, rfl⟩
    · exact ⟨3.5, 0.8, rfl, rfl, rfl⟩
    · exact ⟨3.5, 0.8, rfl, rfl, rfl⟩
  · intro rt; cases rt
    · exact ⟨0.05, 0.2, rfl, rfl, rfl⟩
    · exact ⟨0.05, 0.2, rfl, rfl, rfl⟩
    · exact ⟨0.05, 0.2, rfl, rfl, rfl⟩
  · intro r hf
    refine ⟨?_, ?_, ?_⟩
    · intro hm
      simp only [update_rig_state, hf]
      rw [if_pos hm]
    · intro hnone
      simp only [update_rig_state, hf, hnone]
      split_ifs <;> rfl
    · intro cost hsome hm0
      have hne : ¬ r.state = new_state := by
        intro he
        rw [he] at hsome
        rw [hdiag] at hsome
        exact Option.noConfusion hsome
      constructor
      · intro hcash
        simp only [update_rig_state, hf, hsome]
        rw [if_neg (show ¬ 0 < r.on_contract_months_left by omega), if_neg hne,
          if_pos hcash]
      · intro hcash
        simp only [update_rig_state, hf, hsome]
        rw [if_neg (show ¬ 0 < r.on_contract_months_left by omega), if_neg hne,
          if_neg (not_lt.2 hcash)]

/-- Fixture for the C7 witness: a cold-stacked jack-up reactivated to WARM. -/
def c7_rig : Rig :=
  { id := 1
    rig_type := RigType.jackup
    build_year := 2017
    condition := 78
    region := Region.north_sea
    state := RigState.cold }

def c7_company : Company :=
  { id := 1
    name := "PlayerCo"
    cash_musd := 55
    rigs := [c7_rig]
    debt_musd := 0
    reputation := 0.55 }

theorem claim_C7_update_rig_state_witness :
    update_rig_state c7_company 1 RigState.warm = (true,
      { c7_company with
          cash_musd := c7_company.cash_musd - 1.2
          rigs := update_rig_by_id c7_company.rigs 1
            fun r' => { r' with state := RigState.warm } }) :=
  (((claim_C7_update_rig_state c7_company 1 RigState.warm).2.2.2.2 c7_rig
      (by decide)).2.2 1.2 rfl rfl).2 (by norm_num [c7_company])

/-! ## C9 — transit invariant, mobilization, transit advancement -/

/-- The §3 invariant on one rig: in transit implies a target region is set. -/
def rig_transit_ok (r : Rig) : Prop :=
  0 < r.transit_months_left → r.target_region ≠ none

instance (r : Rig) : Decidable (rig_transit_ok r) := by
  unfold rig_transit_ok; infer_instance

def company_transit_ok (c : Company) : Prop :=
  ∀ r ∈ c.rigs, rig_transit_ok r

instance (c : Company) : Decidable (company_transit_ok c) := by
  unfold company_transit_ok; infer_instance

theorem mem_update_rig_by_id (rigs : List Rig) (i : ℤ) (f : Rig → Rig) :
    ∀ r' ∈ update_rig_by_id rigs i f, r' ∈ rigs ∨ ∃ r ∈ rigs, r' = f r := by
  induction rigs with
  | nil => intro r' h; simp [update_rig_by_id] at h
  | cons r rs ih =>
    intro r' h'
    unfold update_rig_by_id at h'
    split_ifs at h' with hid
    · rcases List.mem_cons.1 h' with h | h
      · exact Or.inr ⟨r, List.mem_cons_self .., h⟩
      · exact Or.inl (List.mem_cons_of_mem _ h)
    · rcases List.mem_cons.1 h' with h | h
      · exact Or.inl (h ▸ List.mem_cons_self ..)
      · rcases ih r' h with h | ⟨x, hx, he⟩
        · exact Or.inl (List.mem_cons_of_mem _ h)
        · exact Or.inr ⟨x, List.mem_cons_of_mem _ hx, he⟩

theorem mem_update_company_by_name (cs : List Company) (n : String)
    (f : Company → Company) :
    ∀ c' ∈ update_company_by_name cs n f, c' ∈ cs ∨ ∃ c ∈ cs, c' = f c := by
  induction cs with
  | nil => intro c' h; simp [update_company_by_name] at h
  | cons c cs ih =>
    intro c' h'
    unfold update_company_by_name at h'
    split_ifs at h' with hn
    · rcases List.mem_cons.1 h' with h | h
      · exact Or.inr ⟨c, List.mem_cons_self .., h⟩
      · exact Or.inl (List.mem_cons_of_mem _ h)
    · rcases List.mem_cons.1 h' with h | h
      · exact Or.inl (h ▸ List.mem_cons_self ..)
      · rcases ih c' h with h | ⟨x, hx, he⟩
        · exact Or.inl (List.mem_cons_of_mem _ h)
        · exact Or.inr ⟨x, List.mem_cons_of_mem _ hx, he⟩

theorem rig_transit_ok_settle (r : Rig) (h : rig_transit_ok r) :
    rig_transit_ok (settle_contract_rig r) := by
  simp only [settle_contract_rig]
  split_ifs <;> exact h

theorem rig_transit_ok_award (t : Tender) (rate : ℕ) (r : Rig) (h : rig_transit_ok r) :
    rig_transit_ok (apply_award_to_rig t rate r) :=
  h

theorem rig_transit_ok_transit_step (r : Rig) (h : rig_transit_ok r) :
    rig_transit_ok (transit_step_rig r) := by
  simp only [transit_step_rig]
  split_ifs with h1 h2
  · intro h0; simp at h0
  · intro _; exact h h1
  · exact h

theorem award_one_tender_transit_ok (pb : List (ℤ × ℤ × ℕ)) (t : Tender)
    (p : Company) (a : List Company) (hp : company_transit_ok p)
    (ha : ∀ x ∈ a, company_transit_ok x) :
    company_transit_ok (award_one_tender pb t p a).2.1 ∧
      ∀ x ∈ (award_one_tender pb t p a).2.2, company_transit_ok x := by
  rcases hw : select_winner (p :: a) (collect_bids pb t p a) with _ | w
  · simp only [award_one_tender, hw]
    exact ⟨hp, ha⟩
  · rcases hall : update_company_by_name (p :: a) w.company (fun c =>
        { c with rigs := update_rig_by_id c.rigs w.rig_id (apply_award_to_rig t w.dayrate) })
      with _ | ⟨p', a'⟩
    · simp only [award_one_tender, hw, hall]
      exact ⟨hp, ha⟩
    · simp only [award_one_tender, hw, hall]
      have hall' : ∀ x ∈ p' :: a', company_transit_ok x := by
        intro x hx
        rw [← hall] at hx
        rcases mem_update_company_by_name _ _ _ x hx with h | ⟨c, hc, he⟩
        · rcases List.mem_cons.1 h with h | h
          · exact h ▸ hp
          · exact ha x h
        · subst he
          intro r' hr'
          rcases mem_update_rig_by_id _ _ _ r' hr' with h | ⟨r, hr, he⟩
          · rcases List.mem_cons.1 hc with hc' | hc'
            · exact (hc' ▸ hp) r' h
            · exact ha c hc' r' h
          · subst he
            apply rig_transit_ok_award
            rcases List.mem_cons.1 hc with hc' | hc'
            · exact (hc' ▸ hp) r hr
            · exact ha c hc' r hr
      exact ⟨hall' p' (List.mem_cons_self ..), fun x hx => hall' x (List.mem_cons_of_mem _ hx)⟩

theorem award_contracts_transit_ok (ts : List Tender) (pb : List (ℤ × ℤ × ℕ)) :
    ∀ (p : Company) (a : List Company), company_transit_ok p →
      (∀ x ∈ a, company_transit_ok x) →
      company_transit_ok (award_contracts ts pb p a).2.1 ∧
        ∀ x ∈ (award_contracts ts pb p a).2.2, company_transit_ok x := by
  induction ts with
  | nil => intro p a hp ha; exact ⟨hp, ha⟩
  | cons t ts ih =>
    intro p a hp ha
    have h1 := award_one_tender_transit_ok pb t p a hp ha
    have h2 := ih (award_one_tender pb t p a).2.1 (award_one_tender pb t p a).2.2 h1.1 h1.2
    exact h2

/-- Claim C9: every rig-mutating operation preserves the invariant that a rig
in transit (`transit_months_left > 0`) has a non-null `target_region` — and
such a rig is never `is_available`; a successful mobilization deducts exactly
2.5 cash and puts a 1-month transit on the rig without touching its region
(the update sets only `transit_months_left` and `target_region`); during turn
resolution the region is rewritten to the target exactly when the transit
counter reaches zero, at which point `target_region` is cleared, and is left
untouched while the counter stays positive. -/
theorem claim_C9_transit_invariant :
    (∀ r : Rig, 0 < r.transit_months_left → r.is_available = false) ∧
    (∀ (c : Company) (rig_id : ℤ) (target : Region), company_transit_ok c →
      company_transit_ok (mobilize_rig c rig_id target).2) ∧
    (∀ (c : Company) (rig_id : ℤ) (new_state : RigState), company_transit_ok c →
      company_transit_ok (update_rig_state c rig_id new_state).2) ∧
    (∀ (c : Company) (rig_id : ℤ), company_transit_ok c →
      company_transit_ok (scrap_rig c rig_id).2) ∧
    (∀ (year : ℤ) (c : Company), company_transit_ok c →
      company_transit_ok (settle_company year c)) ∧
    (∀ c : Company, company_transit_ok c → company_transit_ok (transit_step_company c)) ∧
    (∀ (ts : List Tender) (pb : List (ℤ × ℤ × ℕ)) (p : Company) (a : List Company),
      company_transit_ok p → (∀ x ∈ a, company_transit_ok x) →
      company_transit_ok (award_contracts ts pb p a).2.1 ∧
        ∀ x ∈ (award_contracts ts pb p a).2.2, company_transit_ok x) ∧
    (∀ (c : Company) (rig_id : ℤ) (target : Region) (c' : Company),
      mobilize_rig c rig_id target = (true, c') →
      c'.cash_musd = c.cash_musd - 2.5 ∧
      c'.rigs = update_rig_by_id c.rigs rig_id
        (fun r => { r with transit_months_left := 1, target_region := some target })) ∧
    (∀ r : Rig,
      (r.transit_months_left = 0 → transit_step_rig r = r) ∧
      (r.transit_months_left = 1 →
        transit_step_rig r = { r with
          transit_months_left := 0
          region := r.target_region.getD r.region
          target_region := none }) ∧
      (2 ≤ r.transit_months_left →
        transit_step_rig r = { r with
          transit_months_left := r.transit_months_left - 1 })) := by
  refine ⟨?_, ?_, ?_, ?_, ?_, ?_, award_contracts_transit_ok, ?_, ?_⟩
  · intro r h
    simp [Rig.is_available]
    omega
  · intro c rig_id target hc
    rcases hf : c.rigs.find? (fun r' => decide (r'.id = rig_id)) with _ | rig
    · simp only [mobilize_rig, hf]; exact hc
    · simp only [mobilize_rig, hf]
      split_ifs
      · exact hc
      · exact hc
      · exact hc
      · intro r' hr'
        rcases mem_update_rig_by_id _ _ _ r' hr' with h | ⟨r, hr, he⟩
        · exact hc r' h
        · subst he; intro _; simp
  · intro c rig_id new_state hc
    rcases hf : c.rigs.find? (fun r' => decide (r'.id = rig_id)) with _ | rig
    · simp only [update_rig_state, hf]; exact hc
    · simp only [update_rig_state, hf]
      split_ifs
      · exact hc
      · exact hc
      · rcases hcost : transition_cost_musd rig.rig_type rig.state new_state with _ | cost
        · exact hc
        · simp only []
          split_ifs
          · exact hc
          · intro r' hr'
            rcases mem_update_rig_by_id _ _ _ r' hr' with h | ⟨r, hr, he⟩
            · exact hc r' h
            · subst he; exact hc r hr
  · intro c rig_id hc
    rcases hf : c.rigs.find? (fun r' => decide (r'.id = rig_id)) with _ | rig
    · simp only [scrap_rig, hf]; exact hc
    · simp only [scrap_rig, hf]
      split_ifs <;>
        first
          | exact hc
          | (intro r' hr'; exact hc r' (List.mem_of_mem_filter hr'))
  · intro year c hc r' hr'
    unfold settle_company at hr'
    simp only [List.mem_map] at hr'
    rcases hr' with ⟨r, hr, he⟩
    exact he ▸ rig_transit_ok_settle r (hc r hr)
  · intro c hc r' hr'
    unfold transit_step_company at hr'
    simp only [List.mem_map] at hr'
    rcases hr' with ⟨r, hr, he⟩
    exact he ▸ rig_transit_ok_transit_step r (hc r hr)
  · intro c rig_id target c' h
    rcases hf : c.rigs.find? (fun r' => decide (r'.id = rig_id)) with _ | rig
    · simp only [mobilize_rig, hf] at h
      exact absurd (congrArg Prod.fst h) (by simp)
    · simp only [mobilize_rig, hf] at h
      split_ifs at h <;>
        first
          | exact ⟨(congrArg Company.cash_musd (congrArg Prod.snd h)).symm,
              (congrArg Company.rigs (congrArg Prod.snd h)).symm⟩
          | exact absurd (congrArg Prod.fst h) (by simp)
  · intro r
    refine ⟨?_, ?_, ?_⟩
    · intro h0
      unfold transit_step_rig
      rw [if_neg (by omega)]
    · intro h1
      unfold transit_step_rig
      rw [if_pos (by omega), if_pos (by omega)]
    · intro h2
      unfold transit_step_rig
      rw [if_pos (by omega), if_neg (by omega)]

/-- Fixture for the C9 witness. -/
def c9_rig : Rig :=
  { id := 1
    rig_type := RigType.jackup
    build_year := 2017
    condition := 78
    region := Region.north_sea
    state := RigState.active }

def c9_company : Company :=
  { id := 1
    name := "PlayerCo"
    cash_musd := 55
    rigs := [c9_rig]
    debt_musd := 0
    reputation := 0.55 }

theorem claim_C9_transit_invariant_witness :
    company_transit_ok (mobilize_rig c9_company 1 Region.gom).2 ∧
    (mobilize_rig c9_company 1 Region.gom).2.cash_musd = c9_company.cash_musd - 2.5 ∧
    transit_step_rig { c9_rig with
        transit_months_left := 1, target_region := some Region.gom } =
      { c9_rig with region := Region.gom } := by
  have hmob : mobilize_rig c9_company 1 Region.gom = (true,
      { c9_company with
          cash_musd := c9_company.cash_musd - 2.5
          rigs := update_rig_by_id c9_company.rigs 1
            (fun r => { r with transit_months_left := 1, target_region := some Region.gom }) }) := by
    norm_num [mobilize_rig, c9_company, c9_rig, update_rig_by_id]
    decide
  refine ⟨claim_C9_transit_invariant.2.1 c9_company 1 Region.gom (by decide), ?_, ?_⟩
  · exact (congrArg (fun p => p.2.cash_musd) hmob).trans
      (claim_C9_transit_invariant.2.2.2.2.2.2.2.1 c9_company 1 Region.gom _ hmob).1
  · have h := (claim_C9_transit_invariant.2.2.2.2.2.2.2.2
      { c9_rig with transit_months_left := 1, target_region := some Region.gom }).2.1 rfl
    rw [h]
    rfl

/-! ## C4 — auction scoring, stability and monotonicity -/

theorem first_min_by_mem {α β : Type} [LinearOrder β] (f : α → β) :
    ∀ (l : List α) (a : α), first_min_by f l = some a → a ∈ l := by
  intro l
  induction l with
  | nil => intro a h; simp [first_min_by] at h
  | cons x t ih =>
    intro a h
    rcases ht : first_min_by f t with _ | b
    · simp only [first_min_by, ht] at h
      obtain rfl := Option.some.inj h
      exact List.mem_cons_self ..
    · simp only [first_min_by, ht] at h
      split_ifs at h
      · obtain rfl := Option.some.inj h
        exact List.mem_cons_self ..
      · obtain rfl := Option.some.inj h
        exact List.mem_cons_of_mem _ (ih _ ht)

theorem first_min_by_eq_none {α β : Type} [LinearOrder β] (f : α → β) :
    ∀ l : List α, first_min_by f l = none → l = [] := by
  intro l
  cases l with
  | nil => intro _; rfl
  | cons x t =>
    intro h
    rcases ht : first_min_by f t with _ | b
    · simp [first_min_by, ht] at h
    · simp only [first_min_by, ht] at h
      split_ifs at h

/-- If index `k` attains the strict first minimum of the key, `first_min_by`
returns the element at `k`. -/
theorem first_min_by_of_min_at {α β : Type} [LinearOrder β] (f : α → β) :
    ∀ (l : List α) (k : ℕ) (hk : k < l.length),
      (∀ j (hj : j < l.length), f l[k] ≤ f l[j]) →
      (∀ j (hj : j < l.length), j < k → f l[k] < f l[j]) →
      first_min_by f l = some l[k] := by
  intro l
  induction l with
  | nil => intro k hk; simp at hk
  | cons x t ih =>
    intro k hk hmin hstrict
    cases k with
    | zero =>
      rcases ht : first_min_by f t with _ | b
      · simp only [first_min_by, ht]
        simp
      · have hb := first_min_by_mem f t b ht
        obtain ⟨j, hj, hbj⟩ := List.getElem_of_mem hb
        have hxb : f x ≤ f b := by
          have := hmin (j + 1) (by simpa using Nat.succ_lt_succ hj)
          simpa [hbj] using this
        simp only [first_min_by, ht]
        rw [if_pos hxb]
        simp
    | succ k' =>
      have hk' : k' < t.length := by simpa using Nat.lt_of_succ_lt_succ hk
      have hmin' : ∀ j (hj : j < t.length), f t[k'] ≤ f t[j] := by
        intro j hj
        have := hmin (j + 1) (by simpa using Nat.succ_lt_succ hj)
        simpa using this
      have hstrict' : ∀ j (hj : j < t.length), j < k' → f t[k'] < f t[j] := by
        intro j hj hjk
        have := hstrict (j + 1) (by simpa using Nat.succ_lt_succ hj) (by omega)
        simpa using this
      have ht' := ih k' hk' hmin' hstrict'
      have hxk : f t[k'] < f x := by
        have := hstrict 0 (by simp) (by omega)
        simpa using this
      simp only [first_min_by, ht']
      rw [if_neg (not_le.2 hxk)]
      simp

/-- A non-empty list has a first index attaining the minimum key, and
`first_min_by` returns the element there. -/
theorem first_min_by_index {α β : Type} [LinearOrder β] (f : α → β) :
    ∀ l : List α, l ≠ [] → ∃ (k : ℕ) (hk : k < l.length),
      first_min_by f l = some l[k] ∧
      (∀ j (hj : j < l.length), f l[k] ≤ f l[j]) ∧
      (∀ j (hj : j < l.length), j < k → f l[k] < f l[j]) := by
  intro l
  induction l with
  | nil => intro h; exact absurd rfl h
  | cons x t ih =>
    intro _
    rcases ht : t with _ | ⟨y, t'⟩
    · refine ⟨0, by simp, rfl, ?_, ?_⟩
      · intro j hj
        have : j = 0 := by simpa using hj
        subst this
        exact le_refl _
      · intro j hj hlt
        exact absurd hlt (by omega)
    · rw [← ht]
      obtain ⟨k', hk', hfm, hmin, hstrict⟩ := ih (by simp [ht])
      by_cases hle : f x ≤ f t[k']
      · refine ⟨0, by simp, ?_, ?_, ?_⟩
        · simp only [first_min_by, hfm]
          rw [if_pos hle]
          simp
        · intro j hj
          cases j with
          | zero => exact le_refl _
          | succ j' =>
            have hj' : j' < t.length := by simpa using Nat.lt_of_succ_lt_succ hj
            have := hmin j' hj'
            simpa using le_trans hle this
        · intro j hj hlt
          exact absurd hlt (by omega)
      · refine ⟨k' + 1, by simpa using Nat.succ_lt_succ hk', ?_, ?_, ?_⟩
        · simp only [first_min_by, hfm]
          rw [if_neg hle]
          simp
        · intro j hj
          cases j with
          | zero => simpa using le_of_lt (not_le.1 hle)
          | succ j' =>
            have hj' : j' < t.length := by simpa using Nat.lt_of_succ_lt_succ hj
            simpa using hmin j' hj'
        · intro j hj hlt
          cases j with
          | zero => simpa using not_le.1 hle
          | succ j' =>
            have hj' : j' < t.length := by simpa using Nat.lt_of_succ_lt_succ hj
            simpa using hstrict j' hj' (by omega)

/-- Claim C4: for a fixed non-empty bid list on one tender, the auction winner
is the bid minimizing `day_rate + (1 − reputation) × 4.0`, ties broken in
favor of the first bid in input order (the list `collect_bids` assembles the
player bid first, then the AI bids in company order); strictly lowering the
winner's day-rate never changes the winner, and raising a losing bid while
its score stays above the winner's never changes the winner. -/
theorem claim_C4_auction (cs : List Company) (bids : List BidEntry) (h : bids ≠ []) :
    ∃ (k : ℕ) (hk : k < bids.length),
      select_winner cs bids = some bids[k] ∧
      (∀ j (hj : j < bids.length), score_bid cs bids[k] ≤ score_bid cs bids[j]) ∧
      (∀ j (hj : j < bids.length), j < k → score_bid cs bids[k] < score_bid cs bids[j]) ∧
      (∀ d' : ℕ, (d' : ℚ) < (bids[k].dayrate : ℚ) →
        select_winner cs (bids.set k { bids[k] with dayrate := d' }) =
          some { bids[k] with dayrate := d' }) ∧
      (∀ (j : ℕ) (hj : j < bids.length) (d' : ℕ), j ≠ k →
        bids[j].dayrate ≤ d' →
        score_bid cs bids[k] < score_bid cs { bids[j] with dayrate := d' } →
        select_winner cs (bids.set j { bids[j] with dayrate := d' }) = some bids[k]) := by
  obtain ⟨k, hk, hfm, hmin, hstrict⟩ := first_min_by_index (score_bid cs) bids h
  refine ⟨k, hk, hfm, hmin, hstrict, ?_, ?_⟩
  · intro d' hd'
    have hsc : score_bid cs { bids[k] with dayrate := d' } < score_bid cs bids[k] := by
      unfold score_bid
      exact add_lt_add_right hd' _
    have hlen : (bids.set k { bids[k] with dayrate := d' }).length = bids.length :=
      List.length_set ..
    have hk2 : k < (bids.set k { bids[k] with dayrate := d' }).length := by
      rw [hlen]; exact hk
    have hget : (bids.set k { bids[k] with dayrate := d' })[k] =
        { bids[k] with dayrate := d' } := List.getElem_set_self hk2
    have hres := first_min_by_of_min_at (score_bid cs)
      (bids.set k { bids[k] with dayrate := d' }) k hk2 ?_ ?_
    · rw [hget] at hres
      exact hres
    · intro j hj
      rw [hget]
      by_cases hjk : j = k
      · subst hjk
        rw [hget]
      · rw [List.getElem_set_ne (by omega : k ≠ j)]
        exact le_of_lt (lt_of_lt_of_le hsc (hmin j (by omega)))
    · intro j hj hjk
      rw [hget, List.getElem_set_ne (by omega : k ≠ j)]
      exact lt_trans hsc (hstrict j (by omega) hjk)
  · intro j hj d' hjk hraise hsc
    have hlen : (bids.set j { bids[j] with dayrate := d' }).length = bids.length :=
      List.length_set ..
    have hk2 : k < (bids.set j { bids[j] with dayrate := d' }).length := by
      rw [hlen]; exact hk
    have hj2 : j < (bids.set j { bids[j] with dayrate := d' }).length := by
      rw [hlen]; exact hj
    have hgetk : (bids.set j { bids[j] with dayrate := d' })[k] = bids[k] :=
      List.getElem_set_ne (by omega : j ≠ k) hk2
    have hgetj : (bids.set j { bids[j] with dayrate := d' })[j] =
        { bids[j] with dayrate := d' } := List.getElem_set_self hj2
    have hres := first_min_by_of_min_at (score_bid cs)
      (bids.set j { bids[j] with dayrate := d' }) k hk2 ?_ ?_
    · rw [hgetk] at hres
      exact hres
    · intro i hi
      rw [hgetk]
      by_cases hij : i = j
      · subst hij
        rw [hgetj]
        exact le_of_lt hsc
      · rw [List.getElem_set_ne (by omega : j ≠ i)]
        exact hmin i (by omega)
    · intro i hi hik
      rw [hgetk]
      by_cases hij : i = j
      · subst hij
        rw [hgetj]
        exact hsc
      · rw [List.getElem_set_ne (by omega : j ≠ i)]
        exact hstrict i (by omega) hik

/-- Fixtures for the C4 witness. -/
def c4_companies : List Company :=
  [{ id := 1, name := "PlayerCo", cash_musd := 55, rigs := [], debt_musd := 0,
     reputation := 0.55 },
   { id := 20, name := "Bluewater Titans", cash_musd := 85, rigs := [], debt_musd := 0,
     reputation := 0.65 }]

def c4_bids : List BidEntry :=
  [⟨"PlayerCo", 1, 100⟩, ⟨"Bluewater Titans", 201, 101⟩]

/-! ## C8 — generated-tender bounds -/

theorem getD_mod_mem {α : Type} (l : List α) (hne : l ≠ []) (i : ℕ) (d : α) :
    l.getD (i % l.length) d ∈ l := by
  have hlen : 0 < l.length := List.length_pos.2 hne
  have h : i % l.length < l.length := Nat.mod_lt _ hlen
  rw [List.getD_eq_getElem l d h]
  exact List.getElem_mem h

/-- The `max 40` / `max 30` / fallback shape of `_dayrate_range_k` always
yields `30 ≤ min < max` and `40 ≤ max`. -/
theorem minmax_shape (z w : ℤ) :
    (if max 40 z ≤ max 30 w then max 40 z - 5 else max 30 w) < max 40 z ∧
    30 ≤ (if max 40 z ≤ max 30 w then max 40 z - 5 else max 30 w) ∧
    40 ≤ max 40 z := by
  have h40 : (40 : ℤ) ≤ max 40 z := le_max_left ..
  have h30 : (30 : ℤ) ≤ max 30 w := le_max_left ..
  split_ifs with h <;> refine ⟨?_, ?_, h40⟩ <;> omega

theorem dayrate_range_k_props (rig_class : RigClassRequired)
    (positioning : PositioningRequired) (harsh : Bool) (oil_factor : ℚ)
    (contract_type : ContractType) :
    (dayrate_range_k rig_class positioning harsh oil_factor contract_type).1 <
      (dayrate_range_k rig_class positioning harsh oil_factor contract_type).2 ∧
    30 ≤ (dayrate_range_k rig_class positioning harsh oil_factor contract_type).1 ∧
    40 ≤ (dayrate_range_k rig_class positioning harsh oil_factor contract_type).2 := by
  simp only [dayrate_range_k]
  exact minmax_shape _ _

theorem rig_class_and_positioning_jackup {R : Type} (M : RngModel R)
    (water_depth_m : ℤ) (harsh : Bool) (r : R) :
    (rig_class_and_positioning M water_depth_m harsh r).1.1 = RigClassRequired.jackup →
      (rig_class_and_positioning M water_depth_m harsh r).1.2 ≠
        PositioningRequired.dp_required := by
  by_cases h1 : water_depth_m ≤ 120
  · simp [rig_class_and_positioning, h1]
  · by_cases h2 : water_depth_m ≤ 500
    · rcases hr : M.rand r with ⟨u, r1⟩
      simp [rig_class_and_positioning, h1, h2, hr]
    · by_cases h3 : water_depth_m ≤ 1200
      · rcases hr : M.rand r with ⟨u, r1⟩
        simp [rig_class_and_positioning, h1, h2, h3, hr]
      · rcases hr : M.rand r with ⟨u, r1⟩
        simp [rig_class_and_positioning, h1, h2, h3, hr]

theorem duration_months_ok {R : Type} (M : RngModel R) (ctype : ContractType)
    (harsh : Bool) (r : R) :
    (duration_months M ctype harsh r).1 ∈ duration_choices_months ctype ∨
      (harsh = true ∧ ctype ≠ ContractType.workover ∧
        ∃ m ∈ duration_choices_months ctype, (duration_months M ctype harsh r).1 = m + 3) := by
  have hne : duration_choices_months ctype ≠ [] := by
    cases ctype <;> simp [duration_choices_months]
  rcases hi : M.choice_idx (duration_choices_months ctype).length r with ⟨i, r1⟩
  have hmem := getD_mod_mem (duration_choices_months ctype) hne i 0
  by_cases hc : harsh = true ∧ ctype ≠ ContractType.workover
  · rcases hu : M.rand r1 with ⟨u, r2⟩
    simp only [duration_months, hi, hu, if_pos hc]
    split_ifs with hb
    · exact Or.inr ⟨hc.1, hc.2, _, hmem, rfl⟩
    · exact Or.inl hmem
  · simp only [duration_months, hi, if_neg hc]
    exact Or.inl hmem

theorem gen_tender_ok {R : Type} (M : RngModel R) (regions : List Region)
    (as_of_date : PyDate) (oil_factor : ℚ) (cid : ℤ) (r : R) :
    (gen_tender M regions as_of_date oil_factor cid r).1.spec.min_dayrate <
      (gen_tender M regions as_of_date oil_factor cid r).1.spec.max_dayrate ∧
    30 ≤ (gen_tender M regions as_of_date oil_factor cid r).1.spec.min_dayrate ∧
    40 ≤ (gen_tender M regions as_of_date oil_factor cid r).1.spec.max_dayrate ∧
    ((gen_tender M regions as_of_date oil_factor cid r).1.spec.months ∈
        duration_choices_months
          (gen_tender M regions as_of_date oil_factor cid r).1.spec.contract_type ∨
      ((gen_tender M regions as_of_date oil_factor cid r).1.spec.harsh = true ∧
       (gen_tender M regions as_of_date oil_factor cid r).1.spec.contract_type ≠
         ContractType.workover ∧
       ∃ m ∈ duration_choices_months
          (gen_tender M regions as_of_date oil_factor cid r).1.spec.contract_type,
         (gen_tender M regions as_of_date oil_factor cid r).1.spec.months = m + 3)) ∧
    ((gen_tender M regions as_of_date oil_factor cid r).1.spec.rig_type =
        RigClassRequired.jackup →
      (gen_tender M regions as_of_date oil_factor cid r).1.spec.positioning_required ≠
        PositioningRequired.dp_required) := by
  rcases h1 : M.choice_idx regions.length r with ⟨ri, r1⟩
  rcases h2 : pick_weighted_contract_type M r1 with ⟨ct, r2⟩
  rcases h3 : pick_harsh M (regions.getD (ri % regions.length) Region.north_sea) r2
    with ⟨harsh, r3⟩
  rcases h4 : water_depth M ct r3 with ⟨wd, r4⟩
  rcases h5 : rig_class_and_positioning M wd harsh r4 with ⟨cp, r5⟩
  rcases h6 : duration_months M ct harsh r5 with ⟨dur, r6⟩
  rcases h7 : start_date_of M as_of_date r6 with ⟨start, r7⟩
  rcases h8 : dayrate_range_k cp.1 cp.2 harsh oil_factor ct with ⟨mn, mx⟩
  have hdr := dayrate_range_k_props cp.1 cp.2 harsh oil_factor ct
  rw [h8] at hdr
  have hd := duration_months_ok M ct harsh r5
  rw [h6] at hd
  have hcp := rig_class_and_positioning_jackup M wd harsh r4
  rw [h5] at hcp
  simp only [gen_tender, h1, h2, h3, h4, h5, h6, h7, h8]
  exact ⟨hdr.1, hdr.2.1, hdr.2.2, hd, hcp⟩

theorem gen_loop_length {R : Type} (M : RngModel R) (regions : List Region)
    (as_of_date : PyDate) (oil_factor : ℚ) :
    ∀ (n : ℕ) (cid : ℤ) (r : R),
      (gen_loop M regions as_of_date oil_factor n cid r).1.1.length = n := by
  intro n
  induction n with
  | zero => intro cid r; rfl
  | succ n ih =>
    intro cid r
    rcases ht : gen_tender M regions as_of_date oil_factor cid r with ⟨t, r'⟩
    rcases hl : gen_loop M regions as_of_date oil_factor n (cid + 1) r' with ⟨p, r''⟩
    have hlen := ih (cid + 1) r'
    rw [hl] at hlen
    simp only [gen_loop, ht, hl]
    simp [hlen]

theorem gen_loop_mem {R : Type} (M : RngModel R) (regions : List Region)
    (as_of_date : PyDate) (oil_factor : ℚ) :
    ∀ (n : ℕ) (cid : ℤ) (r : R) (t : Tender),
      t ∈ (gen_loop M regions as_of_date oil_factor n cid r).1.1 →
      ∃ (c : ℤ) (r0 : R), t = (gen_tender M regions as_of_date oil_factor c r0).1 := by
  intro n
  induction n with
  | zero => intro cid r t h; simp [gen_loop] at h
  | succ n ih =>
    intro cid r t h
    rcases ht : gen_tender M regions as_of_date oil_factor cid r with ⟨t0, r'⟩
    rcases hl : gen_loop M regions as_of_date oil_factor n (cid + 1) r' with ⟨p, r''⟩
    simp only [gen_loop, ht, hl] at h
    rcases List.mem_cons.1 h with h | h
    · exact ⟨cid, r, by rw [ht, h]⟩
    · have := ih (cid + 1) r' t (by rw [hl]; exact h)
      exact this

theorem gen_loop_succ_cons {R : Type} (M : RngModel R) (regions : List Region)
    (as_of_date : PyDate) (oil_factor : ℚ) (n : ℕ) (cid : ℤ) (r : R) :
    (gen_loop M regions as_of_date oil_factor (n + 1) cid r).1.1 =
      (gen_tender M regions as_of_date oil_factor cid r).1 ::
        (gen_loop M regions as_of_date oil_factor n (cid + 1)
          (gen_tender M regions as_of_date oil_factor cid r).2).1.1 := by
  rcases ht : gen_tender M regions as_of_date oil_factor cid r with ⟨t, r'⟩
  rcases hl : gen_loop M regions as_of_date oil_factor n (cid + 1) r' with ⟨p, r''⟩
  simp only [gen_loop, ht, hl]

theorem generate_tick_length_le_three {R : Type} (M : RngModel R)
    (regions : List Region) (next_contract_id : ℤ) (as_of_date : PyDate)
    (oil_factor demand_factor : ℚ) (r : R) :
    (generate_tick M regions next_contract_id as_of_date oil_factor demand_factor
        r).1.1.length ≤ 3 := by
  rcases hu : M.uniform (-1.2) 1.2 r with ⟨u, r0⟩
  simp only [generate_tick, hu]
  rw [gen_loop_length]
  have h3 : max 0 (min 3 (pyRound (1.5 * demand_factor + u))) ≤ (3 : ℤ) :=
    max_le (by norm_num) (min_le_left ..)
  exact Int.toNat_le.2 h3

/-- Claim C8: for every sequence of random draws, every oil/demand factor and
every region list, a generated tick contains at most 3 tenders, and each
tender has `min_dayrate < max_dayrate`, `min_dayrate ≥ 30`,
`max_dayrate ≥ 40`, a duration drawn from its contract category's configured
menu (or a menu entry +3, only for harsh non-workover contracts), and a
JACKUP-class tender never requires dynamic positioning. -/
theorem claim_C8_tender_bounds {R : Type} (M : RngModel R) (regions : List Region)
    (next_contract_id : ℤ) (as_of_date : PyDate) (oil_factor demand_factor : ℚ)
    (r : R) :
    (generate_tick M regions next_contract_id as_of_date oil_factor demand_factor
        r).1.1.length ≤ 3 ∧
    ∀ t ∈ (generate_tick M regions next_contract_id as_of_date oil_factor
        demand_factor r).1.1,
      t.spec.min_dayrate < t.spec.max_dayrate ∧
      30 ≤ t.spec.min_dayrate ∧
      40 ≤ t.spec.max_dayrate ∧
      (t.spec.months ∈ duration_choices_months t.spec.contract_type ∨
        (t.spec.harsh = true ∧ t.spec.contract_type ≠ ContractType.workover ∧
          ∃ m ∈ duration_choices_months t.spec.contract_type, t.spec.months = m + 3)) ∧
      (t.spec.rig_type = RigClassRequired.jackup →
        t.spec.positioning_required ≠ PositioningRequired.dp_required) := by
  constructor
  · exact generate_tick_length_le_three ..
  · rcases hu : M.uniform (-1.2) 1.2 r with ⟨u, r0⟩
    simp only [generate_tick, hu]
    intro t ht
    obtain ⟨c, r1, he⟩ := gen_loop_mem M regions as_of_date oil_factor _ _ _ t ht
    subst he
    exact gen_tender_ok M regions as_of_date oil_factor c r1

/-- A concrete draw model for witnesses: every draw returns the lower end of
its range (uniform), zero, or index zero. -/
def const_rng_model : RngModel Unit where
  gauss := fun _ _ r => (0, r)
  uniform := fun a _ r => (a, r)
  rand := fun r => (0, r)
  triangular := fun low _ _ r => (low, r)
  choice_idx := fun _ r => (0, r)
  randint := fun a _ r => (a, r)

theorem claim_C8_tender_bounds_witness :
    (generate_tick const_rng_model [Region.north_sea, Region.gom] 1 ⟨2025, 5, 1⟩ 1 2
        ()).1.1.length ≤ 3 ∧
    (gen_tender const_rng_model [Region.north_sea, Region.gom] ⟨2025, 5, 1⟩ 1 1
        ()).1.spec.min_dayrate <
      (gen_tender const_rng_model [Region.north_sea, Region.gom] ⟨2025, 5, 1⟩ 1 1
        ()).1.spec.max_dayrate := by
  have hn : (max 0 (min 3 (pyRound (1.5 * 2 + -(1.2 : ℚ))))).toNat = 2 := by
    have hfloor : ⌊(1.5 * 2 + -(1.2 : ℚ))⌋ = 1 := by norm_num
    norm_num [pyRound, hfloor]
    rfl
  have hmem : (gen_tender const_rng_model [Region.north_sea, Region.gom] ⟨2025, 5, 1⟩ 1 1
      ()).1 ∈
      (generate_tick const_rng_model [Region.north_sea, Region.gom] 1 ⟨2025, 5, 1⟩ 1 2
        ()).1.1 := by
    simp only [generate_tick, const_rng_model]
    rw [hn, gen_loop_succ_cons]
    exact List.mem_cons_self ..
  exact ⟨(claim_C8_tender_bounds const_rng_model [Region.north_sea, Region.gom] 1
      ⟨2025, 5, 1⟩ 1 2 ()).1,
    ((claim_C8_tender_bounds const_rng_model [Region.north_sea, Region.gom] 1
      ⟨2025, 5, 1⟩ 1 2 ()).2 _ hmem).1⟩

/-! ## C2 — prepare_turn -/

theorem oil_step_month_fields {R : Type} (M : RngModel R) (m : OilMarket) (r : R) :
    (m.step_month M r).1.month = m.month + 1 ∧
    (m.step_month M r).1.mean_price = m.mean_price ∧
    (m.step_month M r).1.reversion = m.reversion ∧
    (m.step_month M r).1.shock_sd = m.shock_sd ∧
    (m.step_month M r).1.lag_months = m.lag_months := by
  rcases hg : M.gauss 0 m.shock_sd r with ⟨shock, r'⟩
  simp [OilMarket.step_month, hg]

theorem steel_step_month_fields {R : Type} (M : RngModel R) (m : SteelMarket) (r : R) :
    (m.step_month M r).1.month = m.month + 1 := by
  rcases hg : M.gauss 0 m.shock_sd r with ⟨shock, r'⟩
  simp only [SteelMarket.step_month, hg]

theorem days_in_month_pos (y : ℤ) (m : ℕ) : 1 ≤ days_in_month y m := by
  unfold days_in_month
  split <;> (try split) <;> norm_num

/-- Shared helper: the full effect of a successful `prepare_turn`. -/
theorem prepare_turn_spec {R : Type} (M : RngModel R) (s : SimState R)
    (h1 : 1 ≤ s.start_year + ((s.oil_market.month + 1) / 12 : ℕ))
    (h2 : s.start_year + ((s.oil_market.month + 1) / 12 : ℕ) ≤ 9999) :
    ∃ (ts : List Tender) (s' : SimState R),
      prepare_turn M s = some (ts, s') ∧
      s'.oil_market = (s.oil_market.step_month M s.rng).1 ∧
      s'.oil_market.month = s.oil_market.month + 1 ∧
      s'.steel_market = (s.steel_market.step_month M
        (s.oil_market.step_month M s.rng).2).1 ∧
      s'.steel_market.month = s.steel_market.month + 1 ∧
      s'.current_tenders = ts ∧
      ts = (generate_tick M [Region.north_sea, Region.gom] s.contract_id_seq
        ⟨s.start_year + (((s.oil_market.step_month M s.rng).1.month) / 12 : ℕ),
          (s.oil_market.step_month M s.rng).1.month % 12 + 1, 1⟩
        (s.oil_market.step_month M s.rng).1.oil_factor
        (s.oil_market.step_month M s.rng).1.demand_factor
        (s.steel_market.step_month M (s.oil_market.step_month M s.rng).2).2).1.1 ∧
      ts.length ≤ 3 ∧
      s'.current_rigs_for_sale = (rig_market_generate_tick M
        (s.start_year + (((s.oil_market.step_month M s.rng).1.month) / 12 : ℕ))
        (s.steel_market.step_month M (s.oil_market.step_month M s.rng).2).1.steel_price
        s.rig_id_seq s.rig_market_rng).1.1 ∧
      s'.player = s.player ∧
      s'.ai_companies = s.ai_companies ∧
      s'.start_year = s.start_year := by
  rcases hoil : s.oil_market.step_month M s.rng with ⟨oil', r1⟩
  rcases hsteel : s.steel_market.step_month M r1 with ⟨steel', r2⟩
  have hm : oil'.month = s.oil_market.month + 1 := by
    have := (oil_step_month_fields M s.oil_market s.rng).1
    rw [hoil] at this
    exact this
  have hms : steel'.month = s.steel_market.month + 1 := by
    have := steel_step_month_fields M s.steel_market r1
    rw [hsteel] at this
    exact this
  have hvalid : date_valid (s.start_year + (oil'.month / 12 : ℕ)) (oil'.month % 12 + 1) 1 := by
    refine ⟨?_, ?_, by omega, by omega, le_refl _, days_in_month_pos ..⟩
    · rw [hm]; exact h1
    · rw [hm]; exact h2
  have hdate : mk_date (s.start_year + (oil'.month / 12 : ℕ)) (oil'.month % 12 + 1) 1 =
      some ⟨s.start_year + (oil'.month / 12 : ℕ), oil'.month % 12 + 1, 1⟩ := by
    unfold mk_date
    rw [if_pos hvalid]
  rcases hgen : generate_tick M [Region.north_sea, Region.gom] s.contract_id_seq
      ⟨s.start_year + (oil'.month / 12 : ℕ), oil'.month % 12 + 1, 1⟩
      oil'.oil_factor oil'.demand_factor r2 with ⟨tc, r3⟩
  rcases hrm : rig_market_generate_tick M (s.start_year + (oil'.month / 12 : ℕ))
      steel'.steel_price s.rig_id_seq s.rig_market_rng with ⟨fr, mr⟩
  refine ⟨tc.1,
    { s with
        rng := r3
        oil_market := oil'
        steel_market := steel'
        contract_id_seq := tc.2
        current_tenders := tc.1
        current_rigs_for_sale := fr.1
        rig_id_seq := fr.2
        rig_market_rng := mr },
    ?_, by simp [hoil], ?_, by simp [hsteel], ?_, rfl, ?_, ?_, ?_, rfl, rfl, rfl⟩
  · simp only [prepare_turn, hoil, hsteel, hdate, hgen, hrm]
  · exact hm
  · exact hms
  · simp [hoil, hsteel, hgen]
  · have := generate_tick_length_le_three M [Region.north_sea, Region.gom]
      s.contract_id_seq ⟨s.start_year + (oil'.month / 12 : ℕ), oil'.month % 12 + 1, 1⟩
      oil'.oil_factor oil'.demand_factor r2
    rw [hgen] at this
    exact this
  · simp [hoil, hsteel, hrm]

/-- Claim C2: from every state whose month counter is still low enough for
Python's `date` constructor (years up to 9999 — every state reachable in a
normal game), `prepare_turn` succeeds: it advances both markets by one month,
generates the month's tenders (at most 3) from the stepped oil market's
signals and the resale listings from the stepped steel price, stores the new
tenders and listings, and returns the new tenders.  The demand/oil factor
accessors missing from src/market.py are spec-modelled
(`OilMarket.oil_factor`, `OilMarket.demand_factor`). -/
theorem claim_C2_prepare_turn {R : Type} (M : RngModel R) (s : SimState R)
    (h1 : 1 ≤ s.start_year + ((s.oil_market.month + 1) / 12 : ℕ))
    (h2 : s.start_year + ((s.oil_market.month + 1) / 12 : ℕ) ≤ 9999) :
    ∃ (ts : List Tender) (s' : SimState R),
      prepare_turn M s = some (ts, s') ∧
      s'.oil_market = (s.oil_market.step_month M s.rng).1 ∧
      s'.oil_market.month = s.oil_market.month + 1 ∧
      s'.steel_market = (s.steel_market.step_month M
        (s.oil_market.step_month M s.rng).2).1 ∧
      s'.steel_market.month = s.steel_market.month + 1 ∧
      s'.current_tenders = ts ∧
      ts = (generate_tick M [Region.north_sea, Region.gom] s.contract_id_seq
        ⟨s.start_year + (((s.oil_market.step_month M s.rng).1.month) / 12 : ℕ),
          (s.oil_market.step_month M s.rng).1.month % 12 + 1, 1⟩
        (s.oil_market.step_month M s.rng).1.oil_factor
        (s.oil_market.step_month M s.rng).1.demand_factor
        (s.steel_market.step_month M (s.oil_market.step_month M s.rng).2).2).1.1 ∧
      ts.length ≤ 3 ∧
      s'.current_rigs_for_sale = (rig_market_generate_tick M
        (s.start_year + (((s.oil_market.step_month M s.rng).1.month) / 12 : ℕ))
        (s.steel_market.step_month M (s.oil_market.step_month M s.rng).2).1.steel_price
        s.rig_id_seq s.rig_market_rng).1.1 ∧
      s'.player = s.player ∧
      s'.ai_companies = s.ai_companies := by
  obtain ⟨ts, s', ha, hb, hc, hd, he, hf, hg, hh, hi, hj, hk, _⟩ :=
    prepare_turn_spec M s h1 h2
  exact ⟨ts, s', ha, hb, hc, hd, he, hf, hg, hh, hi, hj, hk⟩

/-- Fixture for the C2 witness: a freshly initialized player state. -/
def c2_state : SimState Unit :=
  { rng := ()
    start_year := 2025
    oil_market := {}
    steel_market := {}
    contract_id_seq := 1
    rig_id_seq := 1000
    player := { id := 1, name := "PlayerCo", cash_musd := 55, rigs := [], debt_musd := 0,
                reputation := 0.55 }
    ai_companies := []
    current_tenders := []
    current_rigs_for_sale := []
    rig_market_rng := ()
    gen_base_tenders_per_region := 0.5
    gen_noise_max := 2.6 }

theorem claim_C2_prepare_turn_witness :
    (1 ≤ c2_state.start_year + ((c2_state.oil_market.month + 1) / 12 : ℕ) ∧
     c2_state.start_year + ((c2_state.oil_market.month + 1) / 12 : ℕ) ≤ 9999) ∧
    ∃ (ts : List Tender) (s' : SimState Unit),
      prepare_turn const_rng_model c2_state = some (ts, s') ∧
      s'.oil_market = (c2_state.oil_market.step_month const_rng_model c2_state.rng).1 ∧
      s'.oil_market.month = c2_state.oil_market.month + 1 ∧
      s'.steel_market = (c2_state.steel_market.step_month const_rng_model
        (c2_state.oil_market.step_month const_rng_model c2_state.rng).2).1 ∧
      s'.steel_market.month = c2_state.steel_market.month + 1 ∧
      s'.current_tenders = ts ∧
      ts = (generate_tick const_rng_model [Region.north_sea, Region.gom]
        c2_state.contract_id_seq
        ⟨c2_state.start_year +
            (((c2_state.oil_market.step_month const_rng_model c2_state.rng).1.month) / 12 : ℕ),
          (c2_state.oil_market.step_month const_rng_model c2_state.rng).1.month % 12 + 1, 1⟩
        (c2_state.oil_market.step_month const_rng_model c2_state.rng).1.oil_factor
        (c2_state.oil_market.step_month const_rng_model c2_state.rng).1.demand_factor
        (c2_state.steel_market.step_month const_rng_model
          (c2_state.oil_market.step_month const_rng_model c2_state.rng).2).2).1.1 ∧
      ts.length ≤ 3 ∧
      s'.current_rigs_for_sale = (rig_market_generate_tick const_rng_model
        (c2_state.start_year +
          (((c2_state.oil_market.step_month const_rng_model c2_state.rng).1.month) / 12 : ℕ))
        (c2_state.steel_market.step_month const_rng_model
          (c2_state.oil_market.step_month const_rng_model c2_state.rng).2).1.steel_price
        c2_state.rig_id_seq c2_state.rig_market_rng).1.1 ∧
      s'.player = c2_state.player ∧
      s'.ai_companies = c2_state.ai_companies :=
  ⟨⟨by norm_num [c2_state], by norm_num [c2_state]⟩,
    claim_C2_prepare_turn const_rng_model c2_state (by norm_num [c2_state])
      (by norm_num [c2_state])⟩

/-! ## C1 — save/load determinism of subsequent turns -/

theorem rig_for_sale_from_dict_to_dict (f : RigForSale) :
    RigForSale.from_dict (RigForSale.to_dict f) = f := by
  cases f
  simp [RigForSale.to_dict, RigForSale.from_dict, Rig.from_dict_to_dict]

/-- The last-match-wins fold behind `rig_map_lookup` either returns some rig
of the list with the looked-up id, or leaves the accumulator untouched
because no rig has that id. -/
theorem rig_map_lookup_aux (i : ℤ) :
    ∀ (t : List Rig) (init : Option Rig),
      (∃ r', t.foldl (fun acc r => if r.id = i then some r else acc) init = some r' ∧
        r' ∈ t ∧ r'.id = i) ∨
      (t.foldl (fun acc r => if r.id = i then some r else acc) init = init ∧
        ∀ y ∈ t, y.id ≠ i) := by
  intro t
  induction t with
  | nil => intro init; right; exact ⟨rfl, by simp⟩
  | cons y t ih =>
    intro init
    rcases ih (if y.id = i then some y else init) with ⟨r', h, hm, hid⟩ | ⟨heq, hnone⟩
    · left
      exact ⟨r', h, List.mem_cons_of_mem _ hm, hid⟩
    · by_cases hy : y.id = i
      · left
        refine ⟨y, ?_, List.mem_cons_self .., hy⟩
        rw [if_pos hy] at heq
        simpa [List.foldl_cons, if_pos hy] using heq
      · right
        rw [if_neg hy] at heq
        refine ⟨by simpa [List.foldl_cons, if_neg hy] using heq, ?_⟩
        intro y' hy'
        rcases List.mem_cons.1 hy' with rfl | hy''
        · exact hy
        · exact hnone y' hy''

theorem rig_map_lookup_nodup (rigs : List Rig) (hnd : (rigs.map Rig.id).Nodup)
    (r : Rig) (hr : r ∈ rigs) : rig_map_lookup rigs r.id = some r := by
  rcases rig_map_lookup_aux r.id rigs none with ⟨r', h, hm, hid⟩ | ⟨_, hnone⟩
  · have hrr : r' = r := List.inj_on_of_nodup_map hnd hm hr hid
    unfold rig_map_lookup
    rw [h, hrr]
  · exact absurd rfl (hnone r hr)

theorem filterMap_lookup_self (all : List Rig) :
    ∀ rs : List Rig, (∀ r ∈ rs, rig_map_lookup all r.id = some r) →
      (rs.map fun r => (r.id, r.location_id)).filterMap
        (fun p => rig_map_lookup all p.1) = rs := by
  intro rs
  induction rs with
  | nil => intro _; rfl
  | cons r t ih =>
    intro h
    simp only [List.map_cons, List.filterMap_cons]
    rw [h r (List.mem_cons_self ..)]
    rw [ih fun x hx => h x (List.mem_cons_of_mem _ hx)]

theorem company_from_dict_to_dict (all : List Rig) (c : Company)
    (h : ∀ r ∈ c.rigs, rig_map_lookup all r.id = some r) :
    Company.from_dict (Company.to_dict c) (rig_map_lookup all) = c := by
  cases c
  simp only [Company.to_dict, Company.from_dict, Company.mk.injEq, true_and, and_true]
  exact filterMap_lookup_self all _ h

/-- Shared helper: `Sim.load` of `Sim.to_dict` restores the whole turn state,
except that `current_tenders` (never serialized) restarts empty and
`start_year` falls back to the default 2025 of the freshly constructed
`SimConfig`. -/
theorem sim_load_to_dict {R : Type} (s : SimState R)
    (hplayer : s.player.name = "PlayerCo")
    (hai : ∀ c ∈ s.ai_companies, c.name ≠ "PlayerCo")
    (hnodup : (((sim_all_companies s).flatMap Company.rigs).map Rig.id).Nodup) :
    sim_load (sim_to_dict s) = { s with start_year := 2025, current_tenders := [] } := by
  have hrigs : (((sim_all_companies s).flatMap Company.rigs).map Rig.to_dict).map
      Rig.from_dict = (sim_all_companies s).flatMap Company.rigs := by
    rw [List.map_map]
    have hid : Rig.from_dict ∘ Rig.to_dict = id := funext Rig.from_dict_to_dict
    rw [hid, List.map_id]
  have hlookup : ∀ c ∈ sim_all_companies s, ∀ r ∈ c.rigs,
      rig_map_lookup ((sim_all_companies s).flatMap Company.rigs) r.id = some r := by
    intro c hc r hr
    exact rig_map_lookup_nodup _ hnodup r (List.mem_flatMap.2 ⟨c, hc, hr⟩)
  have hcompanies : ((sim_all_companies s).map Company.to_dict).map
      (fun c => Company.from_dict c
        (rig_map_lookup ((sim_all_companies s).flatMap Company.rigs))) =
      sim_all_companies s := by
    rw [List.map_map]
    conv_rhs => rw [← List.map_id (sim_all_companies s)]
    exact List.map_congr_left fun c hc => company_from_dict_to_dict _ c (hlookup c hc)
  have hsale : (s.current_rigs_for_sale.map RigForSale.to_dict).map
      RigForSale.from_dict = s.current_rigs_for_sale := by
    rw [List.map_map]
    have hid : RigForSale.from_dict ∘ RigForSale.to_dict = id :=
      funext rig_for_sale_from_dict_to_dict
    rw [hid, List.map_id]
  simp only [sim_load, sim_to_dict, hrigs, hcompanies, hsale]
  have hfind : (sim_all_companies s).find? (fun c => decide (c.name = "PlayerCo")) =
      some s.player := by
    unfold sim_all_companies
    exact List.find?_cons_of_pos _ (by simp [hplayer])
  have hfilter : (sim_all_companies s).filter (fun c => decide (¬ c.name = "PlayerCo")) =
      s.ai_companies := by
    unfold sim_all_companies
    rw [List.filter_cons_of_neg (by simp [hplayer])]
    exact List.filter_eq_self.2 fun c hc => by simpa using hai c hc
  rw [hfind, hfilter]
  rfl

/-- One turn does not depend on the `current_tenders` carried into it:
`prepare_turn` regenerates them before `resolve_turn` consumes them. -/
theorem prepare_turn_tenders_irrel {R : Type} (M : RngModel R) (s : SimState R) :
    prepare_turn M { s with current_tenders := [] } = prepare_turn M s := by
  rcases hoil : s.oil_market.step_month M s.rng with ⟨oil', r1⟩
  rcases hsteel : s.steel_market.step_month M r1 with ⟨steel', r2⟩
  simp only [prepare_turn, hoil, hsteel]

/-- Claim C1 as amended: for every simulation state whose configured start
year is the default 2025 (the only value the program's drivers ever use, and
the value `Sim.load` silently resets it to), with the spec's well-formedness
invariants (globally unique rig ids; the player is the unique company named
"PlayerCo"), saving with `to_dict` and restoring with `load` yields a state
from which any number of further turns — market steps, tender generation,
awards, cashflow settlement — produces exactly the same observed fields (oil
price, player cash, contract-id counter) as continuing the original run. -/
theorem claim_C1_save_load_refinement {R : Type} (M : RngModel R) (s : SimState R)
    (hyear : s.start_year = 2025)
    (hplayer : s.player.name = "PlayerCo")
    (hai : ∀ c ∈ s.ai_companies, c.name ≠ "PlayerCo")
    (hnodup : (((sim_all_companies s).flatMap Company.rigs).map Rig.id).Nodup)
    (bids : ℕ → List (ℤ × ℤ × ℕ)) (n : ℕ) :
    observed_fields (run_turns M bids n (sim_load (sim_to_dict s))) =
      observed_fields (run_turns M bids n s) := by
  rw [sim_load_to_dict s hplayer hai hnodup]
  have hs : ({ s with start_year := 2025, current_tenders := [] } : SimState R) =
      { s with current_tenders := [] } := by rw [← hyear]
  rw [hs]
  have key : ∀ k, run_turns M bids k { s with current_tenders := [] } =
      run_turns M bids k s ∨
    run_turns M bids k { s with current_tenders := [] } =
      { run_turns M bids k s with current_tenders := [] } := by
    intro k
    induction k with
    | zero => right; rfl
    | succ k ih =>
      rcases ih with h | h
      · left
        simp only [run_turns, h]
      · simp only [run_turns, h]
        unfold sim_turn
        rw [prepare_turn_tenders_irrel]
        rcases hp : prepare_turn M (run_turns M bids k s) with _ | p
        · right; rfl
        · left; rfl
  rcases key n with h | h
  · rw [h]
  · rw [h]
    rfl

/-- An auction with no player bids and no competing companies awards
nothing and mutates nothing. -/
theorem award_contracts_no_bids :
    ∀ (ts : List Tender) (p : Company),
      award_contracts ts [] p [] = ([], p, []) := by
  intro ts
  induction ts with
  | nil => intro p; rfl
  | cons t ts ih =>
    intro p
    have h1 : award_one_tender [] t p [] = (none, p, []) := by
      simp [award_one_tender, collect_bids, p_bid_lookup, select_winner, first_min_by]
    simp [award_contracts, h1, ih p]

/-- For a solo player with no external bids, one turn changes the player's
cash exactly by one cashflow settlement at the current year. -/
theorem sim_turn_player_cash {R : Type} (M : RngModel R) (s : SimState R)
    (hai : s.ai_companies = [])
    (h1 : 1 ≤ s.start_year + ((s.oil_market.month + 1) / 12 : ℕ))
    (h2 : s.start_year + ((s.oil_market.month + 1) / 12 : ℕ) ≤ 9999) :
    (sim_turn M [] s).player.cash_musd =
      (settle_company (s.start_year + ((s.oil_market.month + 1) / 12 : ℕ))
        s.player).cash_musd := by
  obtain ⟨ts, s', hprep, _, hm, _, _, _, _, _, _, hpl, haieq, hsy⟩ :=
    prepare_turn_spec M s h1 h2
  have hyear : s'.start_year + (s'.oil_market.month / 12 : ℕ) =
      s.start_year + ((s.oil_market.month + 1) / 12 : ℕ) := by
    rw [hsy, hm]
  simp only [sim_turn, hprep, resolve_turn]
  rw [haieq, hai, hpl]
  rw [award_contracts_no_bids s'.current_tenders s.player]
  simp only [hyear]
  rfl

/-- Fixture for the C1 counterexample: a non-default start year (2030) and a
player rig on contract whose opex depends on the current year. -/
def c1_rig : Rig :=
  { id := 1
    rig_type := RigType.jackup
    build_year := 2015
    condition := 78
    region := Region.north_sea
    state := RigState.active
    on_contract_months_left := 2
    contract_dayrate := 100
    contract_id := some 5
    location_id := some "1"
    model_id := some "5" }

def c1_player : Company :=
  { id := 1
    name := "PlayerCo"
    cash_musd := 55
    rigs := [c1_rig]
    debt_musd := 0
    reputation := 0.55 }

def c1_state : SimState Unit :=
  { rng := ()
    start_year := 2030
    oil_market := {}
    steel_market := {}
    contract_id_seq := 1
    rig_id_seq := 1000
    player := c1_player
    ai_companies := []
    current_tenders := []
    current_rigs_for_sale := []
    rig_market_rng := ()
    gen_base_tenders_per_region := 0.5
    gen_noise_max := 2.6 }

/-- Counterexample to C1 as stated: `Sim.load` rebuilds the sim from
`SimConfig(seed := 0)`, so a non-default `start_year` (2030 here) is reset to
2025; the first settlement after the reload then prices the contracted rig's
opex at year 2025 instead of 2030 (age penalty 0 instead of 10), and the
player's observed cash diverges from the unbroken run after one further
turn. -/
theorem claim_C1_counterexample :
    observed_fields (run_turns const_rng_model (fun _ => []) 1
        (sim_load (sim_to_dict c1_state))) ≠
      observed_fields (run_turns const_rng_model (fun _ => []) 1 c1_state) := by
  have hload := sim_load_to_dict c1_state (by decide) (by simp [c1_state]) (by decide)
  have hcashA : (sim_turn const_rng_model []
      ({ c1_state with start_year := 2025, current_tenders := [] })).player.cash_musd =
      (settle_company 2025 c1_player).cash_musd := by
    have := sim_turn_player_cash const_rng_model
      { c1_state with start_year := 2025, current_tenders := [] }
      (by simp [c1_state]) (by norm_num [c1_state]) (by norm_num [c1_state])
    simpa [c1_state] using this
  have hcashB : (sim_turn const_rng_model [] c1_state).player.cash_musd =
      (settle_company 2030 c1_player).cash_musd := by
    have := sim_turn_player_cash const_rng_model c1_state
      (by simp [c1_state]) (by norm_num [c1_state]) (by norm_num [c1_state])
    simpa [c1_state] using this
  have hns : ¬ (RigState.active = RigState.scrap) := by decide
  have hA : (settle_company 2025 c1_player).cash_musd = 56.35 := by
    norm_num [settle_company, rig_month_revenue_musd, rig_month_cost_musd,
      Rig.opex_per_day_k, Rig.stacking_cost_per_month_k, c1_player, c1_rig]
    simp only [if_neg hns]
    norm_num
  have hB : (settle_company 2030 c1_player).cash_musd = 56.05 := by
    norm_num [settle_company, rig_month_revenue_musd, rig_month_cost_musd,
      Rig.opex_per_day_k, Rig.stacking_cost_per_month_k, c1_player, c1_rig]
    simp only [if_neg hns, show Int.toNat 15 = 15 from rfl]
    norm_num
  intro h
  rw [hload] at h
  have hx := congrArg (fun t : ℚ × ℚ × ℤ => t.2.1) h
  simp only [observed_fields, run_turns] at hx
  rw [hcashA, hcashB, hA, hB] at hx
  norm_num at hx

/-- Fixture for the C1 witness: a default-configured state. -/
def c1_wstate : SimState Unit :=
  { c1_state with start_year := 2025 }

theorem claim_C1_save_load_refinement_witness :
    (c1_wstate.start_year = 2025 ∧ c1_wstate.player.name = "PlayerCo" ∧
     (∀ c ∈ c1_wstate.ai_companies, c.name ≠ "PlayerCo") ∧
     (((sim_all_companies c1_wstate).flatMap Company.rigs).map Rig.id).Nodup) ∧
    observed_fields (run_turns const_rng_model (fun _ => []) 2
        (sim_load (sim_to_dict c1_wstate))) =
      observed_fields (run_turns const_rng_model (fun _ => []) 2 c1_wstate) :=
  ⟨⟨rfl, rfl, by simp [c1_wstate, c1_state], by decide⟩,
    claim_C1_save_load_refinement const_rng_model c1_wstate rfl rfl
      (by simp [c1_wstate, c1_state]) (by decide) (fun _ => []) 2⟩

theorem claim_C4_auction_witness :
    c4_bids ≠ [] ∧
    ∃ (k : ℕ) (hk : k < c4_bids.length),
      select_winner c4_companies c4_bids = some c4_bids[k] ∧
      (∀ j (hj : j < c4_bids.length),
        score_bid c4_companies c4_bids[k] ≤ score_bid c4_companies c4_bids[j]) ∧
      (∀ j (hj : j < c4_bids.length), j < k →
        score_bid c4_companies c4_bids[k] < score_bid c4_companies c4_bids[j]) ∧
      (∀ d' : ℕ, (d' : ℚ) < (c4_bids[k].dayrate : ℚ) →
        select_winner c4_companies (c4_bids.set k { c4_bids[k] with dayrate := d' }) =
          some { c4_bids[k] with dayrate := d' }) ∧
      (∀ (j : ℕ) (hj : j < c4_bids.length) (d' : ℕ), j ≠ k →
        c4_bids[j].dayrate ≤ d' →
        score_bid c4_companies c4_bids[k] <
          score_bid c4_companies { c4_bids[j] with dayrate := d' } →
        select_winner c4_companies (c4_bids.set j { c4_bids[j] with dayrate := d' }) =
          some c4_bids[k]) :=
  ⟨by decide, claim_C4_auction c4_companies c4_bids (by decide)⟩

end RigTycoon
